import Mathlib

/-!
Shallow embedding of `src/main_loop.rs` (spotifyd's main loop,
`impl Future for MainLoopState`, lines 99-196).

The loop body is a sequence of phases executed each internal iteration:
  1. poll the discovery (credential) stream, lines 105-116;
  2. advance the hook-process supervisor, lines 118-133;
  3. poll the optional dbus server future, discarding its result, lines 135-137;
  then a four-way `if/else if` branch chain, lines 139-193:
  (a) connection ready -> wire up the session and continue;
  (b) ctrl-c stream ready -> shutdown / terminate / continue;
  (c) spirc task complete -> terminate;
  (d) otherwise return NotReady.

Every `poll().unwrap()` in the source can panic; panics are modelled as an
`aborted` outcome.  Credentials, playback events and program paths are
opaque in the source, so they are modelled as natural numbers.  Spirc
handles, spirc tasks and player-event channels are identified by a ghost
counter `wirings` (incremented each time the connection-ready branch runs)
so that statements such as "the same handle" or "the old channel" can be
expressed; the counter has no behavioural effect.
-/

namespace MainLoop

/-- Opaque credential blobs (`creds` received from the discovery stream). -/
abbrev Creds := Nat

/-- Opaque playback events (`PlayerEvent` values from the event channel). -/
abbrev Event := Nat

/-- Result of `stream.poll()` for a futures-0.1 `Stream`:
`Err(_)`, `Async::NotReady`, `Async::Ready(None)` or `Async::Ready(Some a)`. -/
inductive PollRes (α : Type) where
  | err : PollRes α
  | notReady : PollRes α
  | readyNone : PollRes α
  | ready (a : α) : PollRes α
  deriving DecidableEq, Repr

/-- Result of `future.poll()` for a futures-0.1 `Future` with unit item:
`Err(_)`, `Async::NotReady` or `Async::Ready(_)`. -/
inductive FutRes where
  | err : FutRes
  | notReady : FutRes
  | ready : FutRes
  deriving DecidableEq, Repr

/-- Result of `Child::try_wait()`:
`Ok(None)` (still running), `Ok(Some(status))` (exited) or `Err(_)`. -/
inductive TryWaitRes where
  | stillRunning : TryWaitRes
  | exited : TryWaitRes
  | errored : TryWaitRes
  deriving DecidableEq, Repr

/-- The `librespot_connection.connection` field: either a pending connect
operation carrying the credentials it was started with (also covers the
initial connection supplied to `LibreSpotConnection::new`), or the
`futures::future::empty()` placeholder installed at line 142, which never
resolves. -/
inductive ConnState where
  | connecting (c : Creds) : ConnState
  | empty : ConnState
  deriving DecidableEq, Repr

/-- Ghost provenance of a `spirc.shutdown()` call: from the new-credentials
branch (line 109) or from the ctrl-c branch (line 178). -/
inductive SdSource where
  | newCreds : SdSource
  | interrupt : SdSource
  deriving DecidableEq, Repr

/-- Ghost trace of the observable calls the loop makes.  `arrived` records a
playback event being queued on the channel, `retrieve` a successful
`player_event_channel.poll()` yielding an event, `spawn` a
`run_program_on_events` call, `cleared` the hook-process handle being
dropped (`confirmed` is true when `try_wait` returned `Ok(Some _)`, false
when it returned `Err(_)`), `wire` the session wiring of lines 139-174
(handle/task/channel ghost id and the session's credentials). -/
inductive Action where
  | shutdown (h : Nat) (src : SdSource) : Action
  | connectStart (c : Creds) : Action
  | arrived (id : Nat) (e : Event) : Action
  | retrieve (id : Nat) (e : Event) : Action
  | spawn (id : Nat) (e : Event) : Action
  | cleared (e : Event) (confirmed : Bool) : Action
  | wire (h : Nat) (sess : Creds) : Action
  deriving DecidableEq, Repr

/-- The mutable state of `MainLoopState` (with `SpotifydState` and
`LibreSpotConnection` inlined).  `player_event_channel` carries a ghost id
and the queue of not-yet-retrieved events; `running_event_program` carries
the channel id and event of the child it was spawned for;
`player_event_program` is the optional hook-program path;
`dbus_mpris_server` records whether a dbus future is stored, and
`dbusFeature` whether `new_dbus_server` returns `Some` (the `dbus_mpris`
compile-time feature); `wirings` is the ghost id counter. -/
structure MainLoopState where
  connection : ConnState
  spirc : Option Nat
  spirc_task : Option Nat
  shutting_down : Bool
  player_event_channel : Option (Nat × List Event)
  player_event_program : Option Nat
  dbus_mpris_server : Bool
  dbusFeature : Bool
  running_event_program : Option (Nat × Event)
  wirings : Nat
  deriving DecidableEq, Repr

/-- The non-blocking poll results fed to one internal iteration of the loop.
`arrivals` are the playback events the player pushes into the channel
before this iteration's channel poll; `chanErr` injects an `Err` result
into `player_event_channel.poll()` (only observed when the channel is
actually polled); `dbus` is the discarded dbus-future poll result. -/
structure IterInput where
  discovery : PollRes Creds
  try_wait : TryWaitRes
  arrivals : List Event
  chanErr : Bool
  dbus : PollRes Unit
  connPoll : FutRes
  ctrl_c : PollRes Unit
  spircTaskPoll : FutRes
  deriving DecidableEq, Repr

/-- Result of one internal iteration of the `loop` body: a panic from an
`unwrap()` (`aborted`), fall-through to the next iteration (`cont`),
`return Ok(Async::Ready(()))` (`done`) or `return Ok(Async::NotReady)`
(`suspend`).  Every constructor carries the actions this iteration emitted
before it ended. -/
inductive StepRes where
  | aborted (acts : List Action) : StepRes
  | cont (s : MainLoopState) (acts : List Action) : StepRes
  | done (s : MainLoopState) (acts : List Action) : StepRes
  | suspend (s : MainLoopState) (acts : List Action) : StepRes
  deriving DecidableEq, Repr

/-- The actions of a `StepRes`. -/
def StepRes.acts : StepRes → List Action
  | .aborted a => a
  | .cont _ a => a
  | .done _ a => a
  | .suspend _ a => a

/-- The post-state of a `StepRes` (`none` after a panic). -/
def StepRes.state? : StepRes → Option MainLoopState
  | .aborted _ => none
  | .cont s _ => some s
  | .done s _ => some s
  | .suspend s _ => some s

/-- Whether the iteration panicked. -/
def StepRes.isAborted : StepRes → Bool
  | .aborted _ => true
  | _ => false

/-- Whether the iteration fell through to another iteration of the inner
`loop` (no `return` was executed). -/
def StepRes.isCont : StepRes → Bool
  | .cont _ _ => true
  | _ => false

/-- Whether the iteration executed `return Ok(Async::Ready(()))`. -/
def StepRes.isDone : StepRes → Bool
  | .done _ _ => true
  | _ => false

/-- Lines 105-116: poll the discovery stream.  `Err` panics (`unwrap`); on
`Ready(Some creds))` request shutdown of a held spirc handle, then replace
the connection with `Session::connect(..., creds, ...)`; `NotReady` and
`Ready(None)` do nothing. -/
def credPhase (s : MainLoopState) (d : PollRes Creds) :
    Except (List Action) (MainLoopState × List Action) :=
  match d with
  | .err => .error []
  | .ready creds =>
      match s.spirc with
      | some h =>
          .ok ({ s with connection := .connecting creds },
               [Action.shutdown h .newCreds, Action.connectStart creds])
      | none =>
          .ok ({ s with connection := .connecting creds },
               [Action.connectStart creds])
  | .notReady => .ok (s, [])
  | .readyNone => .ok (s, [])

/-- Lines 118-122: `running_event_program.take()` followed by
`child.try_wait()`; the handle is put back only on `Ok(None)`
(still running); on `Ok(Some _)` and on `Err(_)` it stays taken. -/
def superviseChild (child : Option (Nat × Event)) (w : TryWaitRes) :
    Option (Nat × Event) × List Action :=
  match child with
  | none => (none, [])
  | some c =>
      match w with
      | .stillRunning => (some c, [])
      | .exited => (none, [Action.cleared c.2 true])
      | .errored => (none, [Action.cleared c.2 false])

/-- Ghost bookkeeping: the playback events the player pushed since the last
iteration join the tail of the channel's queue (the channel is an unbounded
FIFO `mpsc` queue). -/
def appendArrivals (chan : Option (Nat × List Event)) (arr : List Event) :
    Option (Nat × List Event) × List Action :=
  match chan with
  | some (id, q) => (some (id, q ++ arr), arr.map (Action.arrived id))
  | none => (none, [])

/-- Lines 118-133: the hook-process supervisor.  First the `try_wait` check
of `superviseChild`; then, only if no handle remains stored and a channel
exists, `player_event_channel.poll().unwrap()` — a panic on `Err`, the
front event on a non-empty queue (spawning a child only when a hook
program is configured), `NotReady` on an empty queue.  Returns the new
handle slot, the new channel and the emitted actions, or the actions
emitted before a panic. -/
def hookStep (child : Option (Nat × Event)) (chan : Option (Nat × List Event))
    (program : Option Nat) (w : TryWaitRes) (arr : List Event) (chanErr : Bool) :
    Except (List Action) (Option (Nat × Event) × Option (Nat × List Event) × List Action) :=
  let p1 := superviseChild child w
  let p2 := appendArrivals chan arr
  match p1.1 with
  | some c => .ok (some c, p2.1, p1.2 ++ p2.2)
  | none =>
      match p2.1 with
      | none => .ok (none, none, p1.2 ++ p2.2)
      | some (id, q) =>
          if chanErr then .error (p1.2 ++ p2.2)
          else
            match q with
            | [] => .ok (none, some (id, []), p1.2 ++ p2.2)
            | e :: rest =>
                match program with
                | some _ =>
                    .ok (some (id, e), some (id, rest),
                         p1.2 ++ p2.2 ++ [Action.retrieve id e, Action.spawn id e])
                | none =>
                    .ok (none, some (id, rest), p1.2 ++ p2.2 ++ [Action.retrieve id e])

/-- Lines 135-137: `let _ = fut.poll();` — the dbus future's poll outcome is
discarded unconditionally, whatever it is. -/
def dbusPhase (s : MainLoopState) (_p : PollRes Unit) : MainLoopState := s

/-- Lines 139-174: the connection-ready branch body.  Replaces the
connection with `futures::future::empty()`, installs the new player event
channel, spirc handle, spirc task and (feature permitting) the dbus
server.  The ghost id of the new handle/task/channel is `s.wirings`. -/
def wireSession (s : MainLoopState) (sess : Creds) : MainLoopState × List Action :=
  let h := s.wirings
  ({ s with
      connection := .empty,
      player_event_channel := some (h, []),
      spirc := some h,
      spirc_task := some h,
      dbus_mpris_server := s.dbusFeature,
      wirings := h + 1 },
   [Action.wire h sess])

/-- Lines 175-183: the body of the ctrl-c branch, entered whenever
`ctrl_c_stream.poll()` returned `Ready(_)`.  Only when `shutting_down` is
false does it act: shutdown a held spirc handle and set the flag, or
terminate if none is held; otherwise it just falls through to the next
iteration. -/
def ctrlcBranch (s : MainLoopState) : StepRes :=
  if s.shutting_down then .cont s []
  else
    match s.spirc with
    | some h => .cont { s with shutting_down := true } [Action.shutdown h .interrupt]
    | none => .done s []

/-- Lines 184-192: the spirc-task branch and the final `else`.  The task is
polled only if one exists; `Err` panics, `Ready` terminates the loop,
`NotReady` (or no task) returns `NotReady` to the caller. -/
def taskBranch (s : MainLoopState) (tp : FutRes) : StepRes :=
  match s.spirc_task with
  | some _ =>
      match tp with
      | .err => .aborted []
      | .ready => .done s []
      | .notReady => .suspend s []
  | none => .suspend s []

/-- Lines 175-192: the branch chain after the connection test failed.
`ctrl_c_stream.poll().unwrap()` panics on `Err`; `Ready(_)` (with or
without an item) enters the ctrl-c branch; `NotReady` falls to the
spirc-task branch. -/
def afterConn (s : MainLoopState) (i : IterInput) : StepRes :=
  match i.ctrl_c with
  | .err => .aborted []
  | .notReady => taskBranch s i.spircTaskPoll
  | .readyNone => ctrlcBranch s
  | .ready _ => ctrlcBranch s

/-- Lines 139-193: the four-way branch chain.  The connection is polled
first; `futures::future::empty()` never resolves, so when the connection
is the placeholder the poll yields `NotReady` regardless of the input. -/
def branchPhase (s : MainLoopState) (i : IterInput) : StepRes :=
  match s.connection with
  | .connecting c =>
      match i.connPoll with
      | .err => .aborted []
      | .ready =>
          let w := wireSession s c
          .cont w.1 w.2
      | .notReady => afterConn s i
  | .empty => afterConn s i

/-- One internal iteration of the `loop` body of `poll` (lines 104-194):
credential phase, hook supervisor, dbus poll, then the branch chain. -/
def step (s : MainLoopState) (i : IterInput) : StepRes :=
  match credPhase s i.discovery with
  | .error a => .aborted a
  | .ok (s1, a1) =>
      match hookStep s1.running_event_program s1.player_event_channel
          s1.player_event_program i.try_wait i.arrivals i.chanErr with
      | .error a2 => .aborted (a1 ++ a2)
      | .ok (child, chan, a2) =>
          let s2 := dbusPhase
            { s1 with running_event_program := child, player_event_channel := chan }
            i.dbus
          match branchPhase s2 i with
          | .aborted a3 => .aborted (a1 ++ a2 ++ a3)
          | .cont s3 a3 => .cont s3 (a1 ++ a2 ++ a3)
          | .done s3 a3 => .done s3 (a1 ++ a2 ++ a3)
          | .suspend s3 a3 => .suspend s3 (a1 ++ a2 ++ a3)

/-- How a whole run ended: inputs exhausted while the loop was still live
(`running`), `Ready(())` returned (`terminated`), or a panic (`aborted`).
A `suspend` is not terminal for the run: the surrounding reactive executor
re-invokes `poll`, so the run continues with the next input. -/
inductive RunOutcome where
  | running : RunOutcome
  | terminated : RunOutcome
  | aborted : RunOutcome
  deriving DecidableEq, Repr

/-- Final state, accumulated action trace and outcome of a run. -/
structure RunRes where
  state : MainLoopState
  acts : List Action
  outcome : RunOutcome
  deriving DecidableEq, Repr

/-- Run the loop over a list of per-iteration inputs.  `cont` continues
within the same `poll` call, `suspend` continues via the executor's next
`poll` call; `done` and `aborted` end the run.  On a panic the recorded
state is the pre-iteration state (the process dies). -/
def runAcc : MainLoopState → List IterInput → RunRes
  | s, [] => ⟨s, [], .running⟩
  | s, i :: rest =>
      match step s i with
      | .aborted a => ⟨s, a, .aborted⟩
      | .done s1 a => ⟨s1, a, .terminated⟩
      | .cont s1 a =>
          let r := runAcc s1 rest
          ⟨r.state, a ++ r.acts, r.outcome⟩
      | .suspend s1 a =>
          let r := runAcc s1 rest
          ⟨r.state, a ++ r.acts, r.outcome⟩

/-- A quiet input: every polled source reports `NotReady`, no events arrive,
the stored child (if any) is still running. -/
def quietInput : IterInput :=
  ⟨.notReady, .stillRunning, [], false, .notReady, .notReady, .notReady, .notReady⟩

/-- An idle state: placeholder connection, nothing wired, nothing stored. -/
def idleState : MainLoopState :=
  ⟨.empty, none, none, false, none, none, false, false, none, 0⟩

/-- An idle state with a wired spirc handle and task (ghost id 0). -/
def wiredState : MainLoopState :=
  ⟨.empty, some 0, some 0, false, none, none, false, false, none, 1⟩

/-- Whether an action is a shutdown request (to any handle, from any site). -/
def isSd : Action → Bool
  | .shutdown _ _ => true
  | _ => false

/-- Whether an action is a shutdown request issued by the ctrl-c branch. -/
def isInterruptSd : Action → Bool
  | .shutdown _ .interrupt => true
  | _ => false

/-- Whether an action is a shutdown request aimed at handle `h`. -/
def isSdTo (h : Nat) : Action → Bool
  | .shutdown j _ => j == h
  | _ => false

/-- Whether an action is a hook-process spawn. -/
def isSpawnAct : Action → Bool
  | .spawn _ _ => true
  | _ => false

/-- Whether an action is a session wiring. -/
def isWireAct : Action → Bool
  | .wire _ _ => true
  | _ => false

/-- The events retrieved from channel `id`, in trace order. -/
def retrievedOf (id : Nat) (l : List Action) : List Event :=
  l.filterMap fun a =>
    match a with
    | .retrieve j e => if j = id then some e else none
    | _ => none

/-- The events spawned for channel `id`, in trace order. -/
def spawnedOf (id : Nat) (l : List Action) : List Event :=
  l.filterMap fun a =>
    match a with
    | .spawn j e => if j = id then some e else none
    | _ => none

/-- The events queued on channel `id`, in trace order. -/
def arrivedOf (id : Nat) (l : List Action) : List Event :=
  l.filterMap fun a =>
    match a with
    | .arrived j e => if j = id then some e else none
    | _ => none

/-- All (channel, event) pairs spawned, in trace order. -/
def spawnedPairs (l : List Action) : List (Nat × Event) :=
  l.filterMap fun a =>
    match a with
    | .spawn j e => some (j, e)
    | _ => none

/-- All (channel, event) pairs retrieved, in trace order. -/
def retrievedPairs (l : List Action) : List (Nat × Event) :=
  l.filterMap fun a =>
    match a with
    | .retrieve j e => some (j, e)
    | _ => none

/-- Actions the hook-supervisor phase can emit. -/
def hookActLike : Action → Bool
  | .arrived _ _ => true
  | .retrieve _ _ => true
  | .spawn _ _ => true
  | .cleared _ _ => true
  | _ => false

/-- Actions the credential phase can emit. -/
def credActLike : Action → Bool
  | .shutdown _ .newCreds => true
  | .connectStart _ => true
  | _ => false

/-- The channel-poll part of the hook phase (lines 123-133), factored out for
reasoning: `pre` are the actions already emitted by the `try_wait` check and
the arrival bookkeeping. -/
def hookCore (pre : List Action) (chan1 : Option (Nat × List Event))
    (prog : Option Nat) (ce : Bool) :
    Except (List Action) (Option (Nat × Event) × Option (Nat × List Event) × List Action) :=
  match chan1 with
  | none => .ok (none, none, pre)
  | some (id, q) =>
      if ce then .error pre
      else
        match q with
        | [] => .ok (none, some (id, []), pre)
        | e :: rest =>
            match prog with
            | some _ =>
                .ok (some (id, e), some (id, rest),
                     pre ++ [Action.retrieve id e, Action.spawn id e])
            | none => .ok (none, some (id, rest), pre ++ [Action.retrieve id e])

/-- Prefix a list of already-emitted actions onto an iteration result. -/
def withPre (pre : List Action) : StepRes → StepRes
  | .aborted a => .aborted (pre ++ a)
  | .cont s a => .cont s (pre ++ a)
  | .done s a => .done s (pre ++ a)
  | .suspend s a => .suspend s (pre ++ a)

/-- The state after the hook phase stored its results. -/
def phaseUpdate (s1 : MainLoopState) (child : Option (Nat × Event))
    (chan : Option (Nat × List Event)) : MainLoopState :=
  { s1 with running_event_program := child, player_event_channel := chan }

/-- Actions the three unconditional phases can emit. -/
def phaseActLike (x : Action) : Bool := credActLike x || hookActLike x

/-- What the phases before the branch chain can be blamed for: only
credential-like and hook-like actions, no shutdown when no handle is held,
and channel actions only on a channel the pre-state holds. -/
def PhasePre (s : MainLoopState) (pre : List Action) : Prop :=
  (∀ x ∈ pre, phaseActLike x = true) ∧
  (s.spirc = none → ∀ x ∈ pre, isSd x = false) ∧
  (∀ j e, (Action.arrived j e ∈ pre ∨ Action.retrieve j e ∈ pre ∨ Action.spawn j e ∈ pre) →
      ∃ q0, s.player_event_channel = some (j, q0))

/-- Master decomposition of one iteration: either the phases panic (having
emitted only phase actions), or the iteration is the branch chain applied to
a phase-updated state `s2` that agrees with `s` on every field the phases do
not touch, with the phase actions prefixed. -/
def StepDecomp (s : MainLoopState) (i : IterInput) : Prop :=
  (∃ a, step s i = .aborted a ∧ PhasePre s a ∧
      (i.discovery = .err ∨ i.chanErr = true)) ∨
  (∃ s2 pre, step s i = withPre pre (branchPhase s2 i) ∧ PhasePre s pre ∧
      s2.spirc = s.spirc ∧ s2.spirc_task = s.spirc_task ∧
      s2.shutting_down = s.shutting_down ∧
      s2.player_event_program = s.player_event_program ∧
      s2.wirings = s.wirings ∧ s2.dbusFeature = s.dbusFeature ∧
      (s2.connection = s.connection ∨
        ∃ c', i.discovery = .ready c' ∧ s2.connection = .connecting c') ∧
      (∀ j q2, s2.player_event_channel = some (j, q2) →
          ∃ q0, s.player_event_channel = some (j, q0)))

/-- Interrupt-triggered shutdown requests in a trace. -/
def countInterruptSd (l : List Action) : Nat := l.countP (fun x => isInterruptSd x)

/-- 1 while the interrupt shutdown is still available, 0 once `shutting_down`
is set. -/
def sdPotential (s : MainLoopState) : Nat := if s.shutting_down then 0 else 1

/-- An iteration whose only readiness is a ctrl-c notification. -/
def interruptInput : IterInput := { quietInput with ctrl_c := .ready () }

/-- An iteration in which the discovery stream yields credentials `c`. -/
def credsInput (c : Creds) : IterInput := { quietInput with discovery := .ready c }

/-- A state holding a hook-process handle (for event 5 of channel 0). -/
def c2State : MainLoopState := { idleState with running_event_program := some (0, 5) }

/-- An iteration whose only news is a failing `try_wait` check. -/
def c2Input : IterInput := { quietInput with try_wait := .errored }

/-- A state with a live hook process and a queued event. -/
def c4State : MainLoopState :=
  { idleState with running_event_program := some (0, 5),
                   player_event_channel := some (0, [7]),
                   player_event_program := some 1 }

/-- A wired state in which a shutdown has already been requested. -/
def c3State : MainLoopState := { wiredState with shutting_down := true }

/-- An iteration in which both the ctrl-c stream and the spirc task are
ready. -/
def c3Input : IterInput :=
  { quietInput with ctrl_c := .ready (), spircTaskPoll := .ready }

/-- A state whose connect operation is pending on credentials 3. -/
def c8State : MainLoopState := { idleState with connection := .connecting 3 }

/-- An iteration whose only readiness is the connect operation resolving. -/
def c8Input : IterInput := { quietInput with connPoll := .ready }

/-- A state with an empty event channel present. -/
def c9State : MainLoopState := { idleState with player_event_channel := some (0, []) }

/-- Every channel the state can refer to has ghost id at least `k`, and the
id counter is at least `k` (so every future channel id is too). -/
def chanIdLB (k : Nat) (s : MainLoopState) : Prop :=
  (∀ j q, s.player_event_channel = some (j, q) → k ≤ j) ∧ k ≤ s.wirings

/-- A state with a pending connect and an old channel (id 0) still stored. -/
def c10State : MainLoopState :=
  { idleState with connection := .connecting 3,
                   player_event_channel := some (0, [9]),
                   wirings := 1 }

/-- The state after `c10State` wires its session in a `c8Input` iteration. -/
def c10Post : MainLoopState :=
  ⟨.empty, some 1, some 1, false, some (1, []), none, false, false, none, 2⟩

/-- A state with recently exited hook process handle absent, a queued event
backlog and a configured hook program. -/
def c5WState : MainLoopState :=
  { idleState with player_event_channel := some (0, [1, 2]),
                   player_event_program := some 1 }

/-- A state whose hook process for event 1 is live while event 2 waits. -/
def c5State : MainLoopState :=
  { idleState with running_event_program := some (0, 1),
                   player_event_channel := some (0, [2]),
                   player_event_program := some 1 }

/-- Shape of the credential phase: a panic, no news, or a replacement of the
connection by a connect operation on the delivered credentials, preceded by
a shutdown request when a spirc handle is held. -/
theorem credPhase_shape (s : MainLoopState) (d : PollRes Creds) :
    (credPhase s d = .error [] ∧ d = .err) ∨
    credPhase s d = .ok (s, []) ∨
    (∃ c, d = .ready c ∧
      ((∃ h, s.spirc = some h ∧ credPhase s d =
          .ok ({ s with connection := .connecting c },
               [Action.shutdown h .newCreds, Action.connectStart c])) ∨
       (s.spirc = none ∧ credPhase s d =
          .ok ({ s with connection := .connecting c }, [Action.connectStart c])))) := by
  cases d with
  | err => exact Or.inl ⟨rfl, rfl⟩
  | notReady => exact Or.inr (Or.inl rfl)
  | readyNone => exact Or.inr (Or.inl rfl)
  | ready c =>
      cases hs : s.spirc with
      | some h =>
          exact Or.inr (Or.inr ⟨c, rfl, Or.inl ⟨h, rfl, by simp [credPhase, hs]⟩⟩)
      | none =>
          exact Or.inr (Or.inr ⟨c, rfl, Or.inr ⟨rfl, by simp [credPhase, hs]⟩⟩)

/-- Every action of the credential phase is credential-like. -/
theorem credPhase_acts (s : MainLoopState) (d : PollRes Creds) (s1 : MainLoopState)
    (a : List Action) (h : credPhase s d = .ok (s1, a)) :
    ∀ x ∈ a, credActLike x = true := by
  rcases credPhase_shape s d with ⟨h1, -⟩ | h1 | ⟨c, _, ⟨hh, _, h1⟩ | ⟨_, h1⟩⟩ <;>
    rw [h1] at h <;> cases h <;> simp [credActLike]

/-- The credential phase changes at most the `connection` field. -/
theorem credPhase_state (s : MainLoopState) (d : PollRes Creds) (s1 : MainLoopState)
    (a : List Action) (h : credPhase s d = .ok (s1, a)) :
    s1 = s ∨ ∃ c, d = .ready c ∧ s1 = { s with connection := .connecting c } := by
  rcases credPhase_shape s d with ⟨h1, -⟩ | h1 | ⟨c, hd, ⟨hh, _, h1⟩ | ⟨_, h1⟩⟩ <;>
    rw [h1] at h <;> cases h
  · exact Or.inl rfl
  · exact Or.inr ⟨c, hd, rfl⟩
  · exact Or.inr ⟨c, hd, rfl⟩

/-- Shape of the branch chain: a panic on an `unwrap`, a wiring, a silent
fall-through, an interrupt shutdown setting the flag, a successful return
from the ctrl-c branch or from the spirc-task branch, or `NotReady`; each
with the conditions under which it can arise. -/
theorem branchPhase_shape (s : MainLoopState) (i : IterInput) :
    (branchPhase s i = .aborted [] ∧
      (i.connPoll = .err ∨ i.ctrl_c = .err ∨
        (i.ctrl_c = .notReady ∧ i.spircTaskPoll = .err))) ∨
    (∃ c, s.connection = .connecting c ∧ i.connPoll = .ready ∧
        branchPhase s i = .cont (wireSession s c).1 (wireSession s c).2) ∨
    branchPhase s i = .cont s [] ∨
    (∃ h, s.spirc = some h ∧ s.shutting_down = false ∧
        branchPhase s i =
          .cont { s with shutting_down := true } [Action.shutdown h .interrupt]) ∨
    (s.spirc = none ∧ s.shutting_down = false ∧
      (i.ctrl_c = .readyNone ∨ i.ctrl_c = .ready ()) ∧ branchPhase s i = .done s []) ∨
    (s.spirc_task ≠ none ∧ i.spircTaskPoll = .ready ∧ i.ctrl_c = .notReady ∧
        branchPhase s i = .done s []) ∨
    (i.ctrl_c = .notReady ∧ branchPhase s i = .suspend s []) := by
  cases hc : s.connection with
  | connecting c =>
      cases hp : i.connPoll with
      | err => simp [branchPhase, hc, hp]
      | ready =>
          refine Or.inr (Or.inl ⟨c, rfl, rfl, ?_⟩)
          simp [branchPhase, hc, hp]
      | notReady =>
          have hbp : branchPhase s i = afterConn s i := by simp [branchPhase, hc, hp]
          rw [hbp]
          cases hcc : i.ctrl_c with
          | err => simp [afterConn, hcc]
          | notReady =>
              cases ht : s.spirc_task with
              | none => simp [afterConn, hcc, taskBranch, ht]
              | some t =>
                  cases htp : i.spircTaskPoll <;> simp [afterConn, hcc, taskBranch, ht, htp]
          | readyNone =>
              cases hsd : s.shutting_down with
              | true => simp [afterConn, hcc, ctrlcBranch, hsd]
              | false =>
                  cases hsp : s.spirc with
                  | some h =>
                      refine Or.inr (Or.inr (Or.inr (Or.inl ⟨h, rfl, rfl, ?_⟩)))
                      simp [afterConn, hcc, ctrlcBranch, hsd, hsp, hc]
                  | none => simp [afterConn, hcc, ctrlcBranch, hsd, hsp]
          | ready u =>
              cases hsd : s.shutting_down with
              | true => simp [afterConn, hcc, ctrlcBranch, hsd]
              | false =>
                  cases hsp : s.spirc with
                  | some h =>
                      refine Or.inr (Or.inr (Or.inr (Or.inl ⟨h, rfl, rfl, ?_⟩)))
                      simp [afterConn, hcc, ctrlcBranch, hsd, hsp, hc]
                  | none => simp [afterConn, hcc, ctrlcBranch, hsd, hsp]
  | empty =>
      have hbp : branchPhase s i = afterConn s i := by simp [branchPhase, hc]
      rw [hbp]
      cases hcc : i.ctrl_c with
      | err => simp [afterConn, hcc]
      | notReady =>
          cases ht : s.spirc_task with
          | none => simp [afterConn, hcc, taskBranch, ht]
          | some t =>
              cases htp : i.spircTaskPoll <;> simp [afterConn, hcc, taskBranch, ht, htp]
      | readyNone =>
          cases hsd : s.shutting_down with
          | true => simp [afterConn, hcc, ctrlcBranch, hsd]
          | false =>
              cases hsp : s.spirc with
              | some h =>
                  refine Or.inr (Or.inr (Or.inr (Or.inl ⟨h, rfl, rfl, ?_⟩)))
                  simp [afterConn, hcc, ctrlcBranch, hsd, hsp, hc]
              | none => simp [afterConn, hcc, ctrlcBranch, hsd, hsp]
      | ready u =>
          cases hsd : s.shutting_down with
          | true => simp [afterConn, hcc, ctrlcBranch, hsd]
          | false =>
              cases hsp : s.spirc with
              | some h =>
                  refine Or.inr (Or.inr (Or.inr (Or.inl ⟨h, rfl, rfl, ?_⟩)))
                  simp [afterConn, hcc, ctrlcBranch, hsd, hsp, hc]
              | none => simp [afterConn, hcc, ctrlcBranch, hsd, hsp]

/-- `hookStep` decomposes into the `try_wait` check, the arrival bookkeeping
and `hookCore`. -/
theorem hookStep_eq (child : Option (Nat × Event)) (chan : Option (Nat × List Event))
    (prog : Option Nat) (w : TryWaitRes) (arr : List Event) (ce : Bool) :
    hookStep child chan prog w arr ce =
      match (superviseChild child w).1 with
      | some c => .ok (some c, (appendArrivals chan arr).1,
                       (superviseChild child w).2 ++ (appendArrivals chan arr).2)
      | none => hookCore ((superviseChild child w).2 ++ (appendArrivals chan arr).2)
                  (appendArrivals chan arr).1 prog ce := by
  cases child <;> cases w <;> rcases chan with _ | ⟨id, q⟩ <;> rfl

/-- Without an injected channel error, `hookCore` cannot panic. -/
theorem hookCore_ok (pre : List Action) (chan1 : Option (Nat × List Event))
    (prog : Option Nat) :
    ∃ r, hookCore pre chan1 prog false = .ok r := by
  rcases chan1 with _ | ⟨id, q⟩
  · exact ⟨_, rfl⟩
  · cases q with
    | nil => exact ⟨_, rfl⟩
    | cons e rest => cases prog <;> exact ⟨_, rfl⟩

/-- Without an injected channel error, `hookStep` cannot panic. -/
theorem hookStep_ok (child : Option (Nat × Event)) (chan : Option (Nat × List Event))
    (prog : Option Nat) (w : TryWaitRes) (arr : List Event) :
    ∃ r, hookStep child chan prog w arr false = .ok r := by
  rw [hookStep_eq]
  cases hc1 : (superviseChild child w).1 with
  | some c => exact ⟨_, rfl⟩
  | none =>
      obtain ⟨r, hr⟩ := hookCore_ok ((superviseChild child w).2 ++ (appendArrivals chan arr).2)
        (appendArrivals chan arr).1 prog
      exact ⟨r, by simp [hr]⟩

/-- The `try_wait` check emits only `cleared` actions. -/
theorem superviseChild_acts (child : Option (Nat × Event)) (w : TryWaitRes) :
    ∀ x ∈ (superviseChild child w).2, hookActLike x = true := by
  rcases child with _ | c <;> cases w <;> simp [superviseChild, hookActLike]

/-- The arrival bookkeeping emits only `arrived` actions. -/
theorem appendArrivals_acts (chan : Option (Nat × List Event)) (arr : List Event) :
    ∀ x ∈ (appendArrivals chan arr).2, hookActLike x = true := by
  rcases chan with _ | ⟨id, q⟩ <;> simp [appendArrivals]
  intro x _
  rfl

theorem superviseChild_none (w : TryWaitRes) : superviseChild none w = (none, []) := rfl

theorem superviseChild_still (c : Nat × Event) :
    superviseChild (some c) .stillRunning = (some c, []) := rfl

theorem superviseChild_exited (c : Nat × Event) :
    superviseChild (some c) .exited = (none, [Action.cleared c.2 true]) := rfl

theorem superviseChild_errored (c : Nat × Event) :
    superviseChild (some c) .errored = (none, [Action.cleared c.2 false]) := rfl

theorem appendArrivals_none (arr : List Event) : appendArrivals none arr = (none, []) := rfl

theorem appendArrivals_some (id : Nat) (q : List Event) (arr : List Event) :
    appendArrivals (some (id, q)) arr =
      (some (id, q ++ arr), arr.map (Action.arrived id)) := rfl

/-- Exhaustive case analysis of the channel-poll part. -/
theorem hookCore_cases (pre : List Action) (chan1 : Option (Nat × List Event))
    (prog : Option Nat) (ce : Bool) :
    (chan1 = none ∧ hookCore pre chan1 prog ce = .ok (none, none, pre)) ∨
    (ce = true ∧ (∃ id q, chan1 = some (id, q)) ∧
        hookCore pre chan1 prog ce = .error pre) ∨
    (ce = false ∧ (∃ id, chan1 = some (id, []) ∧
        hookCore pre chan1 prog ce = .ok (none, some (id, []), pre))) ∨
    (ce = false ∧ prog = none ∧ (∃ id e rest, chan1 = some (id, e :: rest) ∧
        hookCore pre chan1 prog ce =
          .ok (none, some (id, rest), pre ++ [Action.retrieve id e]))) ∨
    (ce = false ∧ prog ≠ none ∧ (∃ id e rest, chan1 = some (id, e :: rest) ∧
        hookCore pre chan1 prog ce =
          .ok (some (id, e), some (id, rest),
               pre ++ [Action.retrieve id e, Action.spawn id e]))) := by
  rcases chan1 with _ | ⟨id, q⟩
  · exact Or.inl ⟨rfl, rfl⟩
  · cases ce
    · cases q with
      | nil => exact Or.inr (Or.inr (Or.inl ⟨rfl, id, rfl, rfl⟩))
      | cons e rest =>
          cases prog with
          | none => exact Or.inr (Or.inr (Or.inr (Or.inl ⟨rfl, rfl, id, e, rest, rfl, rfl⟩)))
          | some p =>
              exact Or.inr (Or.inr (Or.inr (Or.inr
                ⟨rfl, by simp, id, e, rest, rfl, rfl⟩)))
    · exact Or.inr (Or.inl ⟨rfl, ⟨id, q, rfl⟩, rfl⟩)

/-- If the hook phase panics, the whole iteration panics. -/
theorem step_hook_err (s : MainLoopState) (i : IterInput) (s1 : MainLoopState)
    (a1 a2 : List Action)
    (hcred : credPhase s i.discovery = .ok (s1, a1))
    (hh : hookStep s1.running_event_program s1.player_event_channel
        s1.player_event_program i.try_wait i.arrivals i.chanErr = .error a2) :
    step s i = .aborted (a1 ++ a2) := by
  simp [step, hcred, hh]

/-- If the hook phase succeeds, the iteration is the branch chain run on the
updated state, with the phase actions prefixed. -/
theorem step_hook_ok (s : MainLoopState) (i : IterInput) (s1 : MainLoopState)
    (a1 : List Action) (child : Option (Nat × Event)) (chan : Option (Nat × List Event))
    (a2 : List Action)
    (hcred : credPhase s i.discovery = .ok (s1, a1))
    (hh : hookStep s1.running_event_program s1.player_event_channel
        s1.player_event_program i.try_wait i.arrivals i.chanErr = .ok (child, chan, a2)) :
    step s i = withPre (a1 ++ a2) (branchPhase (phaseUpdate s1 child chan) i) := by
  simp only [step, hcred, hh, dbusPhase, phaseUpdate]
  cases branchPhase
      { s1 with running_event_program := child, player_event_channel := chan } i <;>
    simp [withPre, List.append_assoc]

theorem hookActLike_isSd (x : Action) (h : hookActLike x = true) : isSd x = false := by
  cases x <;> simp_all [hookActLike, isSd]

theorem phaseActLike_isInterruptSd (x : Action) (h : phaseActLike x = true) :
    isInterruptSd x = false := by
  cases x with
  | shutdown j src =>
      cases src
      · rfl
      · simp [phaseActLike, credActLike, hookActLike] at h
  | connectStart c => rfl
  | arrived j e => rfl
  | retrieve j e => rfl
  | spawn j e => rfl
  | cleared e b => rfl
  | wire h2 c => rfl

theorem superviseChild_mem (child : Option (Nat × Event)) (w : TryWaitRes) :
    ∀ x ∈ (superviseChild child w).2, ∃ e b, x = Action.cleared e b := by
  rcases child with _ | c <;> cases w <;> simp [superviseChild]

theorem appendArrivals_mem (chan : Option (Nat × List Event)) (arr : List Event) :
    ∀ x ∈ (appendArrivals chan arr).2,
      ∃ j e q0, x = Action.arrived j e ∧ chan = some (j, q0) := by
  rcases chan with _ | ⟨id, q⟩ <;> simp [appendArrivals]

theorem appendArrivals_fst (chan : Option (Nat × List Event)) (arr : List Event)
    (j : Nat) (x : List Event) (h : (appendArrivals chan arr).1 = some (j, x)) :
    ∃ q0, chan = some (j, q0) ∧ x = q0 ++ arr := by
  rcases chan with _ | ⟨id, q⟩ <;> simp [appendArrivals] at h
  obtain ⟨rfl, rfl⟩ := h
  exact ⟨q, rfl, rfl⟩

theorem PhasePre_parts (s : MainLoopState) (a1 b c t pre : List Action)
    (hmem : ∀ x ∈ pre, x ∈ a1 ∨ x ∈ b ∨ x ∈ c ∨ x ∈ t)
    (h1 : ∀ x ∈ a1, credActLike x = true)
    (hsd1 : s.spirc = none → ∀ x ∈ a1, isSd x = false)
    (hb : ∀ x ∈ b, ∃ e bb, x = Action.cleared e bb)
    (hc : ∀ x ∈ c, ∃ j e q0, x = Action.arrived j e ∧ s.player_event_channel = some (j, q0))
    (ht : ∀ x ∈ t, ∃ j e q0, (x = Action.retrieve j e ∨ x = Action.spawn j e) ∧
        s.player_event_channel = some (j, q0)) :
    PhasePre s pre := by
  refine ⟨?_, ?_, ?_⟩
  · intro x hx
    rcases hmem x hx with h | h | h | h
    · simp [phaseActLike, h1 x h]
    · obtain ⟨e, bb, rfl⟩ := hb x h
      rfl
    · obtain ⟨j, e, q0, rfl, -⟩ := hc x h
      rfl
    · obtain ⟨j, e, q0, hre, -⟩ := ht x h
      rcases hre with rfl | rfl <;> rfl
  · intro hn x hx
    rcases hmem x hx with h | h | h | h
    · exact hsd1 hn x h
    · obtain ⟨e, bb, rfl⟩ := hb x h
      rfl
    · obtain ⟨j, e, q0, rfl, -⟩ := hc x h
      rfl
    · obtain ⟨j, e, q0, hre, -⟩ := ht x h
      rcases hre with rfl | rfl <;> rfl
  · intro j e hor
    have handle : ∀ x, x ∈ pre → x = Action.arrived j e ∨ x = Action.retrieve j e ∨
        x = Action.spawn j e → ∃ q0, s.player_event_channel = some (j, q0) := by
      intro x hx hform
      rcases hmem x hx with h | h | h | h
      · have := h1 x h
        rcases hform with rfl | rfl | rfl <;> simp [credActLike] at this
      · obtain ⟨e', bb, rfl⟩ := hb x h
        rcases hform with heq | heq | heq <;> simp at heq
      · obtain ⟨j', e', q0, rfl, hch⟩ := hc x h
        rcases hform with heq | heq | heq <;> simp_all
      · obtain ⟨j', e', q0, hre, hch⟩ := ht x h
        rcases hre with rfl | rfl <;> rcases hform with heq | heq | heq <;> simp_all
    rcases hor with hx | hx | hx
    · exact handle _ hx (Or.inl rfl)
    · exact handle _ hx (Or.inr (Or.inl rfl))
    · exact handle _ hx (Or.inr (Or.inr rfl))

theorem step_decomp_aux (s : MainLoopState) (i : IterInput) (s1 : MainLoopState)
    (a1 : List Action)
    (hcred : credPhase s i.discovery = .ok (s1, a1))
    (hspirc : s1.spirc = s.spirc) (htask : s1.spirc_task = s.spirc_task)
    (hflag : s1.shutting_down = s.shutting_down)
    (hprog : s1.player_event_program = s.player_event_program)
    (hwir : s1.wirings = s.wirings) (hdbf : s1.dbusFeature = s.dbusFeature)
    (hchan : s1.player_event_channel = s.player_event_channel)
    (hconn : s1.connection = s.connection ∨
        ∃ c', i.discovery = .ready c' ∧ s1.connection = .connecting c')
    (hacts1 : ∀ x ∈ a1, credActLike x = true)
    (hsd1 : s.spirc = none → ∀ x ∈ a1, isSd x = false) :
    StepDecomp s i := by
  have hhe := hookStep_eq s1.running_event_program s1.player_event_channel
      s1.player_event_program i.try_wait i.arrivals i.chanErr
  have hbmem := superviseChild_mem s1.running_event_program i.try_wait
  have hcmem0 := appendArrivals_mem s1.player_event_channel i.arrivals
  have hcmem : ∀ x ∈ (appendArrivals s1.player_event_channel i.arrivals).2,
      ∃ j e q0, x = Action.arrived j e ∧ s.player_event_channel = some (j, q0) := by
    intro x hx
    obtain ⟨j, e, q0, hxe, hch⟩ := hcmem0 x hx
    exact ⟨j, e, q0, hxe, hchan ▸ hch⟩
  cases hc1 : (superviseChild s1.running_event_program i.try_wait).1 with
  | some c0 =>
      simp only [hc1] at hhe
      refine Or.inr ⟨phaseUpdate s1 (some c0)
          (appendArrivals s1.player_event_channel i.arrivals).1,
        _, step_hook_ok s i s1 a1 _ _ _ hcred hhe, ?_, hspirc, htask, hflag, hprog, hwir,
        hdbf, hconn, ?_⟩
      · refine PhasePre_parts s a1 (superviseChild s1.running_event_program i.try_wait).2
          (appendArrivals s1.player_event_channel i.arrivals).2 [] _ ?_ hacts1 hsd1 hbmem
          hcmem (by simp)
        intro x hx
        simp only [List.mem_append] at hx
        tauto
      · intro j q2 hj
        obtain ⟨q0, hq0, -⟩ := appendArrivals_fst s1.player_event_channel i.arrivals j q2 hj
        exact ⟨q0, hchan ▸ hq0⟩
  | none =>
      simp only [hc1] at hhe
      rcases hookCore_cases ((superviseChild s1.running_event_program i.try_wait).2 ++
            (appendArrivals s1.player_event_channel i.arrivals).2)
          (appendArrivals s1.player_event_channel i.arrivals).1
          s1.player_event_program i.chanErr with
        ⟨hch, hcore⟩ | ⟨hce, ⟨id0, q0, hch⟩, hcore⟩ | ⟨hce, id0, hch, hcore⟩ |
        ⟨hce, hpn, id0, e0, rest0, hch, hcore⟩ | ⟨hce, hps, id0, e0, rest0, hch, hcore⟩
      · rw [hcore] at hhe
        refine Or.inr ⟨phaseUpdate s1 none none,
          _, step_hook_ok s i s1 a1 _ _ _ hcred hhe, ?_, hspirc, htask, hflag, hprog, hwir,
          hdbf, hconn, by intro j q2 hj; cases hj⟩
        refine PhasePre_parts s a1 (superviseChild s1.running_event_program i.try_wait).2
          (appendArrivals s1.player_event_channel i.arrivals).2 [] _ ?_ hacts1 hsd1 hbmem
          hcmem (by simp)
        intro x hx
        simp only [List.mem_append] at hx
        tauto
      · rw [hcore] at hhe
        refine Or.inl ⟨_, step_hook_err s i s1 a1 _ hcred hhe, ?_, Or.inr hce⟩
        refine PhasePre_parts s a1 (superviseChild s1.running_event_program i.try_wait).2
          (appendArrivals s1.player_event_channel i.arrivals).2 [] _ ?_ hacts1 hsd1 hbmem
          hcmem (by simp)
        intro x hx
        simp only [List.mem_append] at hx
        tauto
      · rw [hcore] at hhe
        obtain ⟨qb, hqb, -⟩ := appendArrivals_fst s1.player_event_channel i.arrivals id0 [] hch
        refine Or.inr ⟨phaseUpdate s1 none (some (id0, [])),
          _, step_hook_ok s i s1 a1 _ _ _ hcred hhe, ?_, hspirc, htask, hflag, hprog, hwir,
          hdbf, hconn, ?_⟩
        · refine PhasePre_parts s a1 (superviseChild s1.running_event_program i.try_wait).2
            (appendArrivals s1.player_event_channel i.arrivals).2 [] _ ?_ hacts1 hsd1 hbmem
            hcmem (by simp)
          intro x hx
          simp only [List.mem_append] at hx
          tauto
        · intro j q2 hj
          simp only [phaseUpdate] at hj
          simp only [Option.some.injEq, Prod.mk.injEq] at hj
          obtain ⟨rfl, -⟩ := hj
          exact ⟨qb, hchan ▸ hqb⟩
      · rw [hcore] at hhe
        obtain ⟨qb, hqb, -⟩ := appendArrivals_fst s1.player_event_channel i.arrivals id0
          (e0 :: rest0) hch
        have hsome : s.player_event_channel = some (id0, qb) := hchan ▸ hqb
        refine Or.inr ⟨phaseUpdate s1 none (some (id0, rest0)),
          _, step_hook_ok s i s1 a1 _ _ _ hcred hhe, ?_, hspirc, htask, hflag, hprog, hwir,
          hdbf, hconn, ?_⟩
        · refine PhasePre_parts s a1 (superviseChild s1.running_event_program i.try_wait).2
            (appendArrivals s1.player_event_channel i.arrivals).2
            [Action.retrieve id0 e0] _ ?_ hacts1 hsd1 hbmem hcmem ?_
          · intro x hx
            simp only [List.mem_append] at hx
            tauto
          · intro x hx
            simp only [List.mem_singleton] at hx
            exact ⟨id0, e0, qb, Or.inl hx, hsome⟩
        · intro j q2 hj
          simp only [phaseUpdate] at hj
          simp only [Option.some.injEq, Prod.mk.injEq] at hj
          obtain ⟨rfl, -⟩ := hj
          exact ⟨qb, hsome⟩
      · rw [hcore] at hhe
        obtain ⟨qb, hqb, -⟩ := appendArrivals_fst s1.player_event_channel i.arrivals id0
          (e0 :: rest0) hch
        have hsome : s.player_event_channel = some (id0, qb) := hchan ▸ hqb
        refine Or.inr ⟨phaseUpdate s1 (some (id0, e0)) (some (id0, rest0)),
          _, step_hook_ok s i s1 a1 _ _ _ hcred hhe, ?_, hspirc, htask, hflag, hprog, hwir,
          hdbf, hconn, ?_⟩
        · refine PhasePre_parts s a1 (superviseChild s1.running_event_program i.try_wait).2
            (appendArrivals s1.player_event_channel i.arrivals).2
            [Action.retrieve id0 e0, Action.spawn id0 e0] _ ?_ hacts1 hsd1 hbmem hcmem ?_
          · intro x hx
            simp only [List.mem_append] at hx
            tauto
          · intro x hx
            simp only [List.mem_cons, List.mem_singleton, List.not_mem_nil, or_false] at hx
            rcases hx with rfl | rfl
            · exact ⟨id0, e0, qb, Or.inl rfl, hsome⟩
            · exact ⟨id0, e0, qb, Or.inr rfl, hsome⟩
        · intro j q2 hj
          simp only [phaseUpdate] at hj
          simp only [Option.some.injEq, Prod.mk.injEq] at hj
          obtain ⟨rfl, -⟩ := hj
          exact ⟨qb, hsome⟩

/-- Every iteration decomposes. -/
theorem step_decomp (s : MainLoopState) (i : IterInput) : StepDecomp s i := by
  rcases credPhase_shape s i.discovery with ⟨hcred, hderr⟩ | hcred |
    ⟨c, hd, ⟨h, hsp, hcred⟩ | ⟨hsp, hcred⟩⟩
  · exact Or.inl ⟨[], by simp [step, hcred], ⟨by simp, fun _ => by simp, by simp⟩,
      Or.inl hderr⟩
  · exact step_decomp_aux s i s [] hcred rfl rfl rfl rfl rfl rfl rfl (Or.inl rfl) (by simp)
      (fun _ => by simp)
  · refine step_decomp_aux s i _ _ hcred rfl rfl rfl rfl rfl rfl rfl
      (Or.inr ⟨c, hd, rfl⟩) ?_ ?_
    · intro x hx
      simp only [List.mem_cons, List.mem_singleton, List.not_mem_nil, or_false] at hx
      rcases hx with rfl | rfl <;> rfl
    · intro hn
      rw [hn] at hsp
      cases hsp
  · refine step_decomp_aux s i _ _ hcred rfl rfl rfl rfl rfl rfl rfl
      (Or.inr ⟨c, hd, rfl⟩) ?_ ?_
    · intro x hx
      simp only [List.mem_singleton] at hx
      subst hx
      rfl
    · intro hn x hx
      simp only [List.mem_singleton] at hx
      subst hx
      rfl

theorem countInterruptSd_zero (l : List Action) (h : ∀ x ∈ l, phaseActLike x = true) :
    countInterruptSd l = 0 := by
  rw [countInterruptSd, List.countP_eq_zero]
  intro x hx
  simp [phaseActLike_isInterruptSd x (h x hx)]

/-- One iteration can spend the interrupt-shutdown budget at most once, and
only by setting the flag. -/
theorem step_isd (s : MainLoopState) (i : IterInput) :
    (∀ a, step s i = .aborted a → countInterruptSd a = 0) ∧
    (∀ s3 a, (step s i = .cont s3 a ∨ step s i = .done s3 a ∨ step s i = .suspend s3 a) →
        countInterruptSd a + sdPotential s3 ≤ sdPotential s) := by
  rcases step_decomp s i with ⟨a, hstep, hpre, -⟩ |
    ⟨s2, pre, hstep, hpre, hsp, htask, hflag, hprog, hwir, hdbf, -, hchan⟩
  · refine ⟨?_, ?_⟩
    · intro a2 ha2
      rw [hstep] at ha2
      cases ha2
      exact countInterruptSd_zero a hpre.1
    · intro s3 a2 h
      rcases h with h | h | h <;> rw [hstep] at h <;> cases h
  · have hpre0 : countInterruptSd pre = 0 := countInterruptSd_zero pre hpre.1
    have happ : ∀ t, countInterruptSd (pre ++ t) = countInterruptSd t := by
      intro t
      rw [countInterruptSd, List.countP_append, ← countInterruptSd, ← countInterruptSd, hpre0,
        Nat.zero_add]
    have hφ : sdPotential s2 = sdPotential s := by rw [sdPotential, sdPotential, hflag]
    rcases branchPhase_shape s2 i with ⟨hb, -⟩ | ⟨c, -, -, hb⟩ | hb | ⟨h, -, hf, hb⟩ |
      ⟨-, -, -, hb⟩ | ⟨-, -, -, hb⟩ | ⟨-, hb⟩ <;> rw [hb] at hstep
    · refine ⟨?_, ?_⟩
      · intro a2 ha2
        rw [hstep] at ha2
        cases ha2
        exact happ []
      · intro s3 a2 h
        rcases h with h | h | h <;> rw [hstep] at h <;> cases h
    · refine ⟨fun a2 ha2 => (by rw [hstep] at ha2; cases ha2), ?_⟩
      intro s3 a2 h
      have hwact : countInterruptSd (wireSession s2 c).2 = 0 := by
        simp [wireSession, countInterruptSd, isInterruptSd]
      have hwflag : sdPotential (wireSession s2 c).1 = sdPotential s2 := rfl
      rcases h with h | h | h <;> rw [hstep] at h <;> cases h
      rw [happ, hwact, hwflag, hφ, Nat.zero_add]
    · refine ⟨fun a2 ha2 => (by rw [hstep] at ha2; cases ha2), ?_⟩
      intro s3 a2 h
      rcases h with h | h | h <;> rw [hstep] at h <;> cases h
      rw [happ, hφ]
      simp [countInterruptSd]
    · refine ⟨fun a2 ha2 => (by rw [hstep] at ha2; cases ha2), ?_⟩
      intro s3 a2 hh
      rcases hh with hh | hh | hh <;> rw [hstep] at hh <;> cases hh
      have h1 : countInterruptSd (pre ++ [Action.shutdown h .interrupt]) = 1 := by
        rw [happ]
        rfl
      have h2 : sdPotential { s2 with shutting_down := true } = 0 := rfl
      have h3 : sdPotential s = 1 := by
        rw [← hφ, sdPotential, hf]
        rfl
      rw [h1, h2, h3]
    · refine ⟨fun a2 ha2 => (by rw [hstep] at ha2; cases ha2), ?_⟩
      intro s3 a2 h
      rcases h with h | h | h <;> rw [hstep] at h <;> cases h
      rw [happ, hφ]
      simp [countInterruptSd]
    · refine ⟨fun a2 ha2 => (by rw [hstep] at ha2; cases ha2), ?_⟩
      intro s3 a2 h
      rcases h with h | h | h <;> rw [hstep] at h <;> cases h
      rw [happ, hφ]
      simp [countInterruptSd]
    · refine ⟨fun a2 ha2 => (by rw [hstep] at ha2; cases ha2), ?_⟩
      intro s3 a2 h
      rcases h with h | h | h <;> rw [hstep] at h <;> cases h
      rw [happ, hφ]
      simp [countInterruptSd]

/-- Over a whole run, at most `sdPotential` of the initial state interrupt
shutdowns are ever issued. -/
theorem runAcc_isd (s : MainLoopState) (l : List IterInput) :
    countInterruptSd (runAcc s l).acts ≤ sdPotential s := by
  induction l generalizing s with
  | nil => simp [runAcc, countInterruptSd]
  | cons i rest ih =>
      obtain ⟨habort, hres⟩ := step_isd s i
      cases hst : step s i with
      | aborted a =>
          simp only [runAcc, hst]
          rw [habort a hst]
          exact Nat.zero_le _
      | done s1 a =>
          simp only [runAcc, hst]
          have := hres s1 a (Or.inr (Or.inl hst))
          exact le_trans (Nat.le_add_right _ _) this
      | cont s1 a =>
          simp only [runAcc, hst]
          have h1 := hres s1 a (Or.inl hst)
          have h2 := ih s1
          rw [countInterruptSd, List.countP_append, ← countInterruptSd, ← countInterruptSd]
          calc countInterruptSd a + countInterruptSd (runAcc s1 rest).acts
              ≤ countInterruptSd a + sdPotential s1 := Nat.add_le_add_left h2 _
            _ ≤ sdPotential s := h1
      | suspend s1 a =>
          simp only [runAcc, hst]
          have h1 := hres s1 a (Or.inr (Or.inr hst))
          have h2 := ih s1
          rw [countInterruptSd, List.countP_append, ← countInterruptSd, ← countInterruptSd]
          calc countInterruptSd a + countInterruptSd (runAcc s1 rest).acts
              ≤ countInterruptSd a + sdPotential s1 := Nat.add_le_add_left h2 _
            _ ≤ sdPotential s := h1

/-- C1 counterexample: from a wired state (handle ghost id 0, not shutting
down), an interrupt iteration followed by a new-credentials iteration issues
two shutdown requests to the same handle: the claim's "at most once ...
regardless of how many ... new credential sets arrive afterward" fails. -/
theorem c1_counterexample :
    (runAcc wiredState [interruptInput, credsInput 7]).acts =
      [Action.shutdown 0 .interrupt, Action.shutdown 0 .newCreds,
       Action.connectStart 7] ∧
    (runAcc wiredState [interruptInput, credsInput 7]).acts.countP
      (fun x => isSdTo 0 x) = 2 := by
  decide

/-- C1 (amended): once an interrupt-triggered shutdown request has been
issued, no later iteration issues another interrupt-triggered one — starting
from a state with `shutting_down` unset, every run contains at most one
ctrl-c-branch shutdown request; new credential sets may still issue further
(unguarded) shutdown requests to the same handle. -/
theorem c1_amended (s0 : MainLoopState) (l : List IterInput)
    (h0 : s0.shutting_down = false) :
    countInterruptSd (runAcc s0 l).acts ≤ 1 := by
  have h := runAcc_isd s0 l
  rwa [sdPotential, h0, if_neg Bool.false_ne_true] at h

theorem c1_amended_witness :
    countInterruptSd (runAcc wiredState [interruptInput, interruptInput]).acts ≤ 1 :=
  c1_amended wiredState [interruptInput, interruptInput] rfl

/-- C2 counterexample: with a handle stored and the non-blocking exit check
returning an error, the handle does NOT remain stored: the iteration clears
it, contradicting "under every other outcome ... the handle remains
stored". -/
theorem c2_counterexample :
    c2State.running_event_program = some (0, 5) ∧ c2Input.try_wait = .errored ∧
    ((step c2State c2Input).state?.map (fun s1 => s1.running_event_program)) =
      some none := by
  decide

/-- C2 (amended): a stored hook-process handle survives the non-blocking
exit check exactly when the check reports the process still running
(`Ok(None)`); it is cleared both when the check confirms exit and when the
check itself returns an error. -/
theorem c2_amended : ∀ (c : Nat × Event) (w : TryWaitRes),
    (superviseChild (some c) w).1 = if w = .stillRunning then some c else none := by
  intro c w
  cases w <;> rfl

theorem withPre_acts (pre : List Action) (r : StepRes) :
    (withPre pre r).acts = pre ++ r.acts := by
  cases r <;> rfl

theorem withPre_state (pre : List Action) (r : StepRes) :
    (withPre pre r).state? = r.state? := by
  cases r <;> rfl

theorem credActLike_isSpawn (x : Action) (h : credActLike x = true) :
    isSpawnAct x = false := by
  cases x <;> first | rfl | simp [credActLike] at h

theorem countP_spawn_zero (l : List Action) (h : ∀ x ∈ l, isSpawnAct x = false) :
    l.countP (fun x => isSpawnAct x) = 0 := by
  rw [List.countP_eq_zero]
  intro x hx
  simp [h x hx]

theorem c4_aux (s : MainLoopState) (i : IterInput) (c : Nat × Event) (s1 : MainLoopState)
    (a1 : List Action)
    (hcred : credPhase s i.discovery = .ok (s1, a1))
    (hrun : s1.running_event_program = some c)
    (hw : i.try_wait = .stillRunning)
    (ha1 : ∀ x ∈ a1, credActLike x = true) :
    ((step s i).acts.countP (fun x => isSpawnAct x) = 0) ∧
    (∀ s3, (step s i).state? = some s3 → s3.running_event_program = some c) := by
  have hhe : hookStep s1.running_event_program s1.player_event_channel
      s1.player_event_program i.try_wait i.arrivals i.chanErr =
      .ok (some c, (appendArrivals s1.player_event_channel i.arrivals).1,
           (appendArrivals s1.player_event_channel i.arrivals).2) := by
    rw [hookStep_eq, hrun, hw]
    rfl
  have hstep := step_hook_ok s i s1 a1 (some c)
    (appendArrivals s1.player_event_channel i.arrivals).1
    (appendArrivals s1.player_event_channel i.arrivals).2 hcred hhe
  have hpre0 : (a1 ++ (appendArrivals s1.player_event_channel i.arrivals).2).countP
      (fun x => isSpawnAct x) = 0 := by
    refine countP_spawn_zero _ ?_
    intro x hx
    rcases List.mem_append.mp hx with h1 | h1
    · exact credActLike_isSpawn x (ha1 x h1)
    · obtain ⟨j, e, q0, rfl, -⟩ := appendArrivals_mem s1.player_event_channel i.arrivals x h1
      rfl
  have hs2run : (phaseUpdate s1 (some c)
      (appendArrivals s1.player_event_channel i.arrivals).1).running_event_program =
      some c := rfl
  rcases branchPhase_shape (phaseUpdate s1 (some c)
      (appendArrivals s1.player_event_channel i.arrivals).1) i with
    ⟨hb, -⟩ | ⟨c0, -, -, hb⟩ | hb | ⟨h0, -, -, hb⟩ | ⟨-, -, -, hb⟩ | ⟨-, -, -, hb⟩ | ⟨-, hb⟩ <;>
    rw [hb] at hstep <;> rw [hstep] <;>
    refine ⟨?_, ?_⟩ <;>
    first
    | (rw [withPre_acts]
       rw [List.countP_append, hpre0, Nat.zero_add]
       first
         | rfl
         | simp [wireSession, StepRes.acts, countP_spawn_zero, isSpawnAct])
    | (rw [withPre_state]
       intro s3 h3
       first
         | (simp only [StepRes.state?, Option.some.injEq] at h3
            subst h3
            first | exact hs2run | rfl)
         | cases h3)

/-- While the stored hook process is still running, the iteration spawns
nothing and keeps the handle. -/
theorem step_still_keeps (s : MainLoopState) (i : IterInput) (c : Nat × Event)
    (hc : s.running_event_program = some c) (hw : i.try_wait = .stillRunning) :
    ((step s i).acts.countP (fun x => isSpawnAct x) = 0) ∧
    (∀ s3, (step s i).state? = some s3 → s3.running_event_program = some c) := by
  cases hd : i.discovery with
  | err =>
      constructor
      · simp [step, credPhase, hd, StepRes.acts]
      · intro s3 h3
        simp [step, credPhase, hd, StepRes.state?] at h3
  | notReady =>
      exact c4_aux s i c s [] (by rw [hd]; rfl) hc hw (by simp)
  | readyNone =>
      exact c4_aux s i c s [] (by rw [hd]; rfl) hc hw (by simp)
  | ready c' =>
      cases hsp : s.spirc with
      | some h0 =>
          refine c4_aux s i c { s with connection := .connecting c' }
            [Action.shutdown h0 .newCreds, Action.connectStart c']
            (by rw [hd]; simp [credPhase, hsp]) hc hw ?_
          intro x hx
          simp only [List.mem_cons, List.mem_singleton, List.not_mem_nil, or_false] at hx
          rcases hx with rfl | rfl <;> rfl
      | none =>
          refine c4_aux s i c { s with connection := .connecting c' }
            [Action.connectStart c']
            (by rw [hd]; simp [credPhase, hsp]) hc hw ?_
          intro x hx
          simp only [List.mem_singleton] at hx
          subst hx
          rfl

/-- C4: at most one hook-process handle is live at any instant — while a
stored hook process is still running (`try_wait` reports `Ok(None)`), the
iteration spawns no new process and the stored handle is unchanged; the
`running_event_program` slot being an optional value, no second handle can
coexist with it. -/
theorem c4_no_overlap (s : MainLoopState) (i : IterInput) (c : Nat × Event)
    (hc : s.running_event_program = some c) (hw : i.try_wait = .stillRunning) :
    ((step s i).acts.countP (fun x => isSpawnAct x) = 0) ∧
    (∀ s3, (step s i).state? = some s3 → s3.running_event_program = some c) :=
  step_still_keeps s i c hc hw

theorem c4_no_overlap_witness :
    ((step c4State quietInput).acts.countP (fun x => isSpawnAct x) = 0) ∧
    (∀ s3, (step c4State quietInput).state? = some s3 →
        s3.running_event_program = some (0, 5)) :=
  c4_no_overlap c4State quietInput (0, 5) rfl rfl

/-- When the ctrl-c stream was ready (or errored), the spirc-task poll input
is never consulted by the branch chain. -/
theorem branchPhase_tp_irrel (s2 : MainLoopState) (i : IterInput) (tp : FutRes)
    (h : i.ctrl_c ≠ .notReady) :
    branchPhase s2 { i with spircTaskPoll := tp } = branchPhase s2 i := by
  cases hcc : i.ctrl_c with
  | notReady => exact absurd hcc h
  | err =>
      cases hc : s2.connection <;> cases hp : i.connPoll <;>
        simp [branchPhase, afterConn, hc, hp, hcc]
  | readyNone =>
      cases hc : s2.connection <;> cases hp : i.connPoll <;>
        simp [branchPhase, afterConn, hc, hp, hcc]
  | ready u =>
      cases hc : s2.connection <;> cases hp : i.connPoll <;>
        simp [branchPhase, afterConn, hc, hp, hcc]

/-- When the connection is pending and its poll is ready, neither the ctrl-c
poll nor the spirc-task poll is consulted by the branch chain. -/
theorem branchPhase_ready_irrel (s2 : MainLoopState) (i : IterInput) (cc : PollRes Unit)
    (tp : FutRes) (c : Creds) (hc : s2.connection = .connecting c)
    (hp : i.connPoll = .ready) :
    branchPhase s2 { i with ctrl_c := cc, spircTaskPoll := tp } = branchPhase s2 i := by
  simp [branchPhase, hc, hp]

/-- Two inputs that agree on everything the phases read, and whose branch
chains agree on every state the phases can produce, drive the iteration
identically. -/
theorem step_input_eq (s : MainLoopState) (i i2 : IterInput)
    (hd : i2.discovery = i.discovery) (hw : i2.try_wait = i.try_wait)
    (ha : i2.arrivals = i.arrivals) (hce : i2.chanErr = i.chanErr)
    (hbr : ∀ s2, (s2.connection = s.connection ∨ ∃ c', s2.connection = .connecting c') →
        branchPhase s2 i2 = branchPhase s2 i) :
    step s i2 = step s i := by
  cases hcp : credPhase s i.discovery with
  | error a => simp [step, hd, hcp]
  | ok p =>
      rcases p with ⟨s1, a1⟩
      have hconn1 : s1.connection = s.connection ∨ ∃ c', s1.connection = .connecting c' := by
        rcases credPhase_state s i.discovery s1 a1 hcp with rfl | ⟨c', -, rfl⟩
        · exact Or.inl rfl
        · exact Or.inr ⟨c', rfl⟩
      have hcp2 : credPhase s i2.discovery = .ok (s1, a1) := by rw [hd]; exact hcp
      cases hh : hookStep s1.running_event_program s1.player_event_channel
          s1.player_event_program i.try_wait i.arrivals i.chanErr with
      | error a2 =>
          have hh2 : hookStep s1.running_event_program s1.player_event_channel
              s1.player_event_program i2.try_wait i2.arrivals i2.chanErr = .error a2 := by
            rw [hw, ha, hce]; exact hh
          rw [step_hook_err s i2 s1 a1 a2 hcp2 hh2, step_hook_err s i s1 a1 a2 hcp hh]
      | ok r =>
          rcases r with ⟨child, chan, a2⟩
          have hh2 : hookStep s1.running_event_program s1.player_event_channel
              s1.player_event_program i2.try_wait i2.arrivals i2.chanErr =
              .ok (child, chan, a2) := by
            rw [hw, ha, hce]; exact hh
          have hbr2 := hbr (phaseUpdate s1 child chan) (by
            rcases hconn1 with h1 | ⟨c', h1⟩
            · exact Or.inl h1
            · exact Or.inr ⟨c', h1⟩)
          rw [step_hook_ok s i2 s1 a1 child chan a2 hcp2 hh2,
              step_hook_ok s i s1 a1 child chan a2 hcp hh, hbr2]

/-- C3 counterexample: with `shutting_down` already true, an iteration in
which an interrupt notification arrives AND the remote-control task's
completion check would succeed does NOT terminate: the ctrl-c branch is
entered (doing nothing) and the loop re-enters at step 1, so branch (c) is
not evaluated in that iteration — contradicting "an interrupt notification
arriving while ShutdownState is already true does not prevent branch (c)
from being evaluated in that same iteration". -/
theorem c3_counterexample :
    c3State.shutting_down = true ∧ c3Input.ctrl_c = .ready () ∧
    c3State.spirc_task = some 0 ∧ c3Input.spircTaskPoll = .ready ∧
    step c3State c3Input = .cont c3State [] ∧
    (step c3State c3Input).isDone = false := by
  decide

/-- C3 (amended): after the three unconditional steps, at most one branch
acts, first match wins: when the connect poll is ready neither later poll is
consulted; when the ctrl-c stream is ready the spirc-task poll is not
consulted; and when the ctrl-c stream is ready while `ShutdownState` is
already true, the branch does nothing and the loop re-enters at step 1 —
branch (c) is NOT evaluated in that same iteration. -/
theorem c3_amended :
    (∀ (s : MainLoopState) (i : IterInput) (c : Creds) (cc : PollRes Unit) (tp : FutRes),
        s.connection = .connecting c → i.connPoll = .ready →
        step s { i with ctrl_c := cc, spircTaskPoll := tp } = step s i) ∧
    (∀ (s : MainLoopState) (i : IterInput) (tp : FutRes), i.ctrl_c ≠ .notReady →
        step s { i with spircTaskPoll := tp } = step s i) ∧
    (∀ (s : MainLoopState) (i : IterInput), s.shutting_down = true →
        i.discovery ≠ .err → i.chanErr = false → i.connPoll = .notReady →
        i.ctrl_c ≠ .err → i.ctrl_c ≠ .notReady →
        (step s i).isCont = true) := by
  refine ⟨?_, ?_, ?_⟩
  · intro s i c cc tp hc hp
    refine step_input_eq s i _ rfl rfl rfl rfl ?_
    intro s2 hcon
    rcases hcon with h1 | ⟨c', h1⟩
    · exact branchPhase_ready_irrel s2 i cc tp c (h1.trans hc) hp
    · exact branchPhase_ready_irrel s2 i cc tp c' h1 hp
  · intro s i tp h
    exact step_input_eq s i _ rfl rfl rfl rfl
      (fun s2 _ => branchPhase_tp_irrel s2 i tp h)
  · intro s i hsd hderr hce hcp hccE hccN
    rcases step_decomp s i with ⟨a, hstep, -, hcause⟩ |
      ⟨s2, pre, hstep, -, -, -, hflag, -, -, -, -, -⟩
    · rcases hcause with h1 | h1
      · exact absurd h1 hderr
      · rw [hce] at h1; cases h1
    · rcases branchPhase_shape s2 i with ⟨hb, hcause⟩ | ⟨c0, -, hready, -⟩ | hb |
        ⟨h0, -, hf, -⟩ | ⟨-, hf, -, -⟩ | ⟨-, -, hccn, -⟩ | ⟨hccn, hb⟩
      · rcases hcause with h1 | h1 | ⟨h1, -⟩
        · rw [hcp] at h1; cases h1
        · exact absurd h1 hccE
        · exact absurd h1 hccN
      · rw [hcp] at hready; cases hready
      · rw [hstep, hb]; rfl
      · rw [hflag, hsd] at hf; cases hf
      · rw [hflag, hsd] at hf; cases hf
      · exact absurd hccn hccN
      · exact absurd hccn hccN

theorem c3_amended_witness :
    (step wiredState { interruptInput with spircTaskPoll := .ready } =
        step wiredState interruptInput) ∧
    (step c3State c3Input).isCont = true := by
  constructor
  · exact c3_amended.2.1 wiredState interruptInput .ready (by decide)
  · exact c3_amended.2.2 c3State c3Input rfl (by decide) rfl rfl (by decide) (by decide)

theorem wire_step_aux (s : MainLoopState) (i : IterInput) (c : Creds) (a1 : List Action)
    (hcred : credPhase s i.discovery = .ok ({ s with connection := .connecting c }, a1))
    (hce : i.chanErr = false) (hcp : i.connPoll = .ready) :
    (step s i).isCont = true ∧
    Action.wire s.wirings c ∈ (step s i).acts ∧
    (∀ s3, (step s i).state? = some s3 →
        s3.connection = .empty ∧ s3.spirc = some s.wirings ∧
        s3.spirc_task = some s.wirings ∧
        s3.player_event_channel = some (s.wirings, []) ∧
        s3.dbus_mpris_server = s.dbusFeature ∧
        s3.wirings = s.wirings + 1) := by
  obtain ⟨r, hh⟩ := hookStep_ok
    ({ s with connection := .connecting c } : MainLoopState).running_event_program
    ({ s with connection := .connecting c } : MainLoopState).player_event_channel
    ({ s with connection := .connecting c } : MainLoopState).player_event_program
    i.try_wait i.arrivals
  rcases r with ⟨child, chan, a2⟩
  have hh2 : hookStep
      ({ s with connection := .connecting c } : MainLoopState).running_event_program
      ({ s with connection := .connecting c } : MainLoopState).player_event_channel
      ({ s with connection := .connecting c } : MainLoopState).player_event_program
      i.try_wait i.arrivals i.chanErr = .ok (child, chan, a2) := by
    rw [hce]; exact hh
  have hstep := step_hook_ok s i { s with connection := .connecting c } a1 child chan a2
    hcred hh2
  have hcs : (phaseUpdate { s with connection := .connecting c } child chan).connection =
      .connecting c := rfl
  have hb : branchPhase (phaseUpdate { s with connection := .connecting c } child chan) i =
      .cont (wireSession (phaseUpdate { s with connection := .connecting c } child chan) c).1
            (wireSession (phaseUpdate { s with connection := .connecting c } child chan) c).2 := by
    simp [branchPhase, hcs, hcp]
  rw [hb] at hstep
  refine ⟨?_, ?_, ?_⟩
  · rw [hstep]; rfl
  · rw [hstep, withPre_acts]
    have hw2 : (wireSession (phaseUpdate { s with connection := .connecting c } child chan)
        c).2 = [Action.wire s.wirings c] := rfl
    rw [hw2]
    simp [StepRes.acts]
  · intro s3 h3
    rw [hstep, withPre_state] at h3
    simp only [StepRes.state?, Option.some.injEq] at h3
    subst h3
    exact ⟨rfl, rfl, rfl, rfl, rfl, rfl⟩

/-- C6: whenever the discovery stream yields new credentials, a held spirc
handle first receives a shutdown request, then the pending connect operation
is unconditionally replaced by a connect on exactly those credentials (the
old operation is overwritten, never awaited); and if the (new) connect
operation resolves in the same iteration, the session wired is the one of
the just-received credentials. -/
theorem c6_creds_replace :
    (∀ (s : MainLoopState) (i : IterInput) (c : Creds), i.discovery = .ready c →
        s.spirc = none →
        credPhase s i.discovery =
          .ok ({ s with connection := .connecting c }, [Action.connectStart c])) ∧
    (∀ (s : MainLoopState) (i : IterInput) (c : Creds) (h : Nat), i.discovery = .ready c →
        s.spirc = some h →
        credPhase s i.discovery =
          .ok ({ s with connection := .connecting c },
               [Action.shutdown h .newCreds, Action.connectStart c])) ∧
    (∀ (s : MainLoopState) (i : IterInput) (c : Creds), i.discovery = .ready c →
        i.chanErr = false → i.connPoll = .ready →
        Action.wire s.wirings c ∈ (step s i).acts) := by
  refine ⟨?_, ?_, ?_⟩
  · intro s i c hd hsp
    rw [hd]
    simp [credPhase, hsp]
  · intro s i c h hd hsp
    rw [hd]
    simp [credPhase, hsp]
  · intro s i c hd hce hcp
    cases hsp : s.spirc with
    | some h0 =>
        exact (wire_step_aux s i c [Action.shutdown h0 .newCreds, Action.connectStart c]
          (by rw [hd]; simp [credPhase, hsp]) hce hcp).2.1
    | none =>
        exact (wire_step_aux s i c [Action.connectStart c]
          (by rw [hd]; simp [credPhase, hsp]) hce hcp).2.1

theorem c6_creds_replace_witness :
    (credPhase wiredState (credsInput 7).discovery =
      .ok ({ wiredState with connection := .connecting 7 },
           [Action.shutdown 0 .newCreds, Action.connectStart 7])) ∧
    Action.wire 0 7 ∈ (step idleState { credsInput 7 with connPoll := .ready }).acts := by
  constructor
  · exact c6_creds_replace.2.1 wiredState (credsInput 7) 7 0 rfl rfl
  · exact c6_creds_replace.2.2 idleState { credsInput 7 with connPoll := .ready } 7
      rfl rfl rfl

/-- C8: when the pending connect operation resolves, the iteration performs
the wiring (stores the new spirc handle and task, the new event channel,
and the dbus server exactly when the feature is compiled in), replaces the
connection with the never-resolving placeholder, and continues the loop in
the same poll call instead of suspending; and while the placeholder is
installed and no credential event occurs, no wiring can happen. -/
theorem c8_wiring :
    (∀ (s : MainLoopState) (i : IterInput) (c : Creds), s.connection = .connecting c →
        i.discovery = .notReady → i.chanErr = false → i.connPoll = .ready →
        (step s i).isCont = true ∧
        Action.wire s.wirings c ∈ (step s i).acts ∧
        (∀ s3, (step s i).state? = some s3 →
            s3.connection = .empty ∧ s3.spirc = some s.wirings ∧
            s3.spirc_task = some s.wirings ∧
            s3.player_event_channel = some (s.wirings, []) ∧
            s3.dbus_mpris_server = s.dbusFeature ∧
            s3.wirings = s.wirings + 1)) ∧
    (∀ (s : MainLoopState) (i : IterInput) (j : Nat) (c : Creds),
        s.connection = .empty → (∀ c', i.discovery ≠ .ready c') →
        Action.wire j c ∉ (step s i).acts) := by
  constructor
  · intro s i c hc hd hce hcp
    exact wire_step_aux s i c [] (by rw [hd, ← hc]; rfl) hce hcp
  · intro s i j c hc hd
    intro hmem
    rcases step_decomp s i with ⟨a, hstep, hpre, -⟩ |
      ⟨s2, pre, hstep, hpre, -, -, -, -, -, -, hconn, -⟩
    · rw [hstep] at hmem
      have := hpre.1 _ hmem
      simp [phaseActLike, credActLike, hookActLike] at this
    · rw [hstep, withPre_acts] at hmem
      rcases List.mem_append.mp hmem with hm | hm
      · have := hpre.1 _ hm
        simp [phaseActLike, credActLike, hookActLike] at this
      · have hempty : s2.connection = .empty := by
          rcases hconn with h1 | ⟨c', hd', -⟩
          · rw [h1, hc]
          · exact absurd hd' (hd c')
        rcases branchPhase_shape s2 i with ⟨hb, -⟩ | ⟨c0, hcn, -, -⟩ | hb |
          ⟨h0, -, -, hb⟩ | ⟨-, -, -, hb⟩ | ⟨-, -, -, hb⟩ | ⟨-, hb⟩ <;>
          first
          | (rw [hempty] at hcn; cases hcn)
          | (rw [hb] at hm
             simp [StepRes.acts] at hm)

theorem c8_wiring_witness :
    ((step c8State c8Input).isCont = true ∧
     Action.wire 0 3 ∈ (step c8State c8Input).acts ∧
     (∀ s3, (step c8State c8Input).state? = some s3 →
        s3.connection = .empty ∧ s3.spirc = some 0 ∧ s3.spirc_task = some 0 ∧
        s3.player_event_channel = some (0, []) ∧
        s3.dbus_mpris_server = c8State.dbusFeature ∧ s3.wirings = 0 + 1)) ∧
    Action.wire 0 3 ∉ (step idleState quietInput).acts := by
  constructor
  · exact c8_wiring.1 c8State c8Input 3 rfl rfl rfl rfl
  · exact c8_wiring.2 idleState quietInput 0 3 rfl (fun c' h => by cases h)

/-- C9: every polled source whose `poll()` result is `unwrap`ped is fatal —
an error from the discovery stream, the playback-event channel (when it is
polled), the pending connect operation, the ctrl-c stream, or the spirc
task makes the whole iteration panic (process abort); the loop itself has
no error return (its result type carries none). -/
theorem c9_fatal_errors :
    (∀ (s : MainLoopState) (i : IterInput), i.discovery = .err →
        step s i = .aborted []) ∧
    (∀ (s : MainLoopState) (i : IterInput) (id : Nat) (q : List Event),
        s.running_event_program = none → s.player_event_channel = some (id, q) →
        i.discovery = .notReady → i.chanErr = true →
        (step s i).isAborted = true) ∧
    (∀ (s : MainLoopState) (i : IterInput) (c : Creds), s.connection = .connecting c →
        i.discovery = .notReady → i.chanErr = false → i.connPoll = .err →
        (step s i).isAborted = true) ∧
    (∀ (s : MainLoopState) (i : IterInput), s.connection = .empty →
        i.discovery = .notReady → i.chanErr = false → i.ctrl_c = .err →
        (step s i).isAborted = true) ∧
    (∀ (s : MainLoopState) (i : IterInput) (t : Nat), s.connection = .empty →
        i.discovery = .notReady → i.chanErr = false → i.ctrl_c = .notReady →
        s.spirc_task = some t → i.spircTaskPoll = .err →
        (step s i).isAborted = true) := by
  refine ⟨?_, ?_, ?_, ?_, ?_⟩
  · intro s i hd
    simp [step, credPhase, hd]
  · intro s i id q hrun hchan hd hce
    have hcred : credPhase s i.discovery = .ok (s, []) := by rw [hd]; rfl
    have hh : hookStep s.running_event_program s.player_event_channel
        s.player_event_program i.try_wait i.arrivals i.chanErr =
        .error ([] ++ (appendArrivals (some (id, q)) i.arrivals).2) := by
      rw [hookStep_eq, hrun, hchan, hce]
      rfl
    rw [step_hook_err s i s [] _ hcred hh]
    rfl
  · intro s i c hc hd hce hcp
    have hcred : credPhase s i.discovery = .ok (s, []) := by rw [hd]; rfl
    obtain ⟨⟨child, chan, a2⟩, hh⟩ := hookStep_ok s.running_event_program
      s.player_event_channel s.player_event_program i.try_wait i.arrivals
    have hh2 : hookStep s.running_event_program s.player_event_channel
        s.player_event_program i.try_wait i.arrivals i.chanErr = .ok (child, chan, a2) := by
      rw [hce]; exact hh
    rw [step_hook_ok s i s [] child chan a2 hcred hh2]
    have hcs : (phaseUpdate s child chan).connection = .connecting c := hc
    have hb : branchPhase (phaseUpdate s child chan) i = .aborted [] := by
      simp [branchPhase, hcs, hcp]
    rw [hb]
    rfl
  · intro s i hc hd hce hcc
    have hcred : credPhase s i.discovery = .ok (s, []) := by rw [hd]; rfl
    obtain ⟨⟨child, chan, a2⟩, hh⟩ := hookStep_ok s.running_event_program
      s.player_event_channel s.player_event_program i.try_wait i.arrivals
    have hh2 : hookStep s.running_event_program s.player_event_channel
        s.player_event_program i.try_wait i.arrivals i.chanErr = .ok (child, chan, a2) := by
      rw [hce]; exact hh
    rw [step_hook_ok s i s [] child chan a2 hcred hh2]
    have hcs : (phaseUpdate s child chan).connection = .empty := hc
    have hb : branchPhase (phaseUpdate s child chan) i = .aborted [] := by
      simp [branchPhase, afterConn, hcs, hcc]
    rw [hb]
    rfl
  · intro s i t hc hd hce hcc ht htp
    have hcred : credPhase s i.discovery = .ok (s, []) := by rw [hd]; rfl
    obtain ⟨⟨child, chan, a2⟩, hh⟩ := hookStep_ok s.running_event_program
      s.player_event_channel s.player_event_program i.try_wait i.arrivals
    have hh2 : hookStep s.running_event_program s.player_event_channel
        s.player_event_program i.try_wait i.arrivals i.chanErr = .ok (child, chan, a2) := by
      rw [hce]; exact hh
    rw [step_hook_ok s i s [] child chan a2 hcred hh2]
    have hcs : (phaseUpdate s child chan).connection = .empty := hc
    have hts : (phaseUpdate s child chan).spirc_task = some t := ht
    have hb : branchPhase (phaseUpdate s child chan) i = .aborted [] := by
      simp [branchPhase, afterConn, taskBranch, hcs, hcc, hts, htp]
    rw [hb]
    rfl

theorem c9_fatal_errors_witness :
    step idleState { quietInput with discovery := .err } = .aborted [] ∧
    (step c9State { quietInput with chanErr := true }).isAborted = true ∧
    (step c8State { quietInput with connPoll := .err }).isAborted = true ∧
    (step idleState { quietInput with ctrl_c := .err }).isAborted = true ∧
    (step wiredState { quietInput with spircTaskPoll := .err }).isAborted = true := by
  refine ⟨?_, ?_, ?_, ?_, ?_⟩
  · exact c9_fatal_errors.1 idleState _ rfl
  · exact c9_fatal_errors.2.1 c9State _ 0 [] rfl rfl rfl rfl
  · exact c9_fatal_errors.2.2.1 c8State _ 3 rfl rfl rfl rfl
  · exact c9_fatal_errors.2.2.2.1 idleState _ rfl rfl rfl rfl
  · exact c9_fatal_errors.2.2.2.2 wiredState _ 0 rfl rfl rfl rfl rfl rfl

theorem step_done_cases (s : MainLoopState) (i : IterInput) (s3 : MainLoopState)
    (a : List Action) (h : step s i = .done s3 a) :
    (s.spirc_task ≠ none ∧ i.spircTaskPoll = .ready ∧ i.ctrl_c = .notReady) ∨
    (s.spirc = none ∧ s.shutting_down = false ∧
      (i.ctrl_c = .readyNone ∨ i.ctrl_c = .ready ()) ∧
      ∀ h0 src, Action.shutdown h0 src ∉ a) := by
  rcases step_decomp s i with ⟨a2, hstep, -, -⟩ |
    ⟨s2, pre, hstep, hpre, hsp, htask, hflag, -, -, -, -, -⟩
  · rw [hstep] at h
    cases h
  · rcases branchPhase_shape s2 i with ⟨hb, -⟩ | ⟨c0, -, -, hb⟩ | hb |
      ⟨h0, -, -, hb⟩ | ⟨hbs, hbf, hbc, hb⟩ | ⟨hbt, hbp, hbc, hb⟩ | ⟨-, hb⟩ <;>
      rw [hb] at hstep <;> rw [hstep] at h <;> cases h
    · refine Or.inr ⟨hsp ▸ hbs, hflag ▸ hbf, hbc, ?_⟩
      intro h0 src hmem
      rcases List.mem_append.mp hmem with hm | hm
      · have hforall := hpre.2.1 (by rw [← hsp]; exact hbs)
        have := hforall _ hm
        simp [isSd] at this
      · cases hm
    · exact Or.inl ⟨htask ▸ hbt, hbp, hbc⟩

theorem step_spirc_none (s : MainLoopState) (i : IterInput) (hsp : s.spirc = none) :
    (∀ a, step s i = .aborted a → ∀ h0 src, Action.shutdown h0 src ∉ a) ∧
    (∀ s3 a, (step s i = .cont s3 a ∨ step s i = .done s3 a ∨ step s i = .suspend s3 a) →
        (∀ j c, Action.wire j c ∉ a) →
        s3.spirc = none ∧ ∀ h0 src, Action.shutdown h0 src ∉ a) := by
  rcases step_decomp s i with ⟨a2, hstep, hpre, -⟩ |
    ⟨s2, pre, hstep, hpre, hsp2, -, -, -, hwir, -, -, -⟩
  · constructor
    · intro a ha h0 src hmem
      rw [hstep] at ha
      cases ha
      have := hpre.2.1 hsp _ hmem
      simp [isSd] at this
    · intro s3 a hres
      rcases hres with hr | hr | hr <;> rw [hstep] at hr <;> cases hr
  · have hpresd : ∀ h0 src, Action.shutdown h0 src ∉ pre := by
      intro h0 src hmem
      have := hpre.2.1 hsp _ hmem
      simp [isSd] at this
    have hs2 : s2.spirc = none := hsp2.trans hsp
    constructor
    · intro a ha h0 src hmem
      rcases branchPhase_shape s2 i with ⟨hb, -⟩ | ⟨c0, -, -, hb⟩ | hb |
        ⟨h1, hb1, -, hb⟩ | ⟨-, -, -, hb⟩ | ⟨-, -, -, hb⟩ | ⟨-, hb⟩ <;>
        rw [hb] at hstep <;> rw [hstep] at ha <;> cases ha
      rcases List.mem_append.mp hmem with hm | hm
      · exact hpresd h0 src hm
      · cases hm
    · intro s3 a hres hnw
      rcases branchPhase_shape s2 i with ⟨hb, -⟩ | ⟨c0, -, -, hb⟩ | hb |
        ⟨h1, hb1, -, hb⟩ | ⟨-, -, -, hb⟩ | ⟨-, -, -, hb⟩ | ⟨-, hb⟩ <;>
        rw [hb] at hstep <;>
        (try (rcases hres with hr | hr | hr <;> rw [hstep] at hr <;> cases hr))
      · refine ((hnw s2.wirings c0 (List.mem_append.mpr (Or.inr ?_))).elim)
        have hw2 : (wireSession s2 c0).2 = [Action.wire s2.wirings c0] := rfl
        rw [hw2]
        exact List.mem_singleton.mpr rfl
      · refine ⟨hs2, ?_⟩
        intro h0 src hmem
        rcases List.mem_append.mp hmem with hm | hm
        · exact hpresd h0 src hm
        · cases hm
      · rw [hb1] at hs2
        cases hs2
      · refine ⟨hs2, ?_⟩
        intro h0 src hmem
        rcases List.mem_append.mp hmem with hm | hm
        · exact hpresd h0 src hm
        · cases hm
      · refine ⟨hs2, ?_⟩
        intro h0 src hmem
        rcases List.mem_append.mp hmem with hm | hm
        · exact hpresd h0 src hm
        · cases hm
      · refine ⟨hs2, ?_⟩
        intro h0 src hmem
        rcases List.mem_append.mp hmem with hm | hm
        · exact hpresd h0 src hm
        · cases hm

theorem runAcc_no_sd (s : MainLoopState) (l : List IterInput) (hsp : s.spirc = none)
    (hnw : ∀ j c, Action.wire j c ∉ (runAcc s l).acts) :
    ∀ h0 src, Action.shutdown h0 src ∉ (runAcc s l).acts := by
  induction l generalizing s with
  | nil =>
      intro h0 src hmem
      simp [runAcc] at hmem
  | cons i rest ih =>
      obtain ⟨habort, hres⟩ := step_spirc_none s i hsp
      cases hst : step s i with
      | aborted a =>
          simp only [runAcc, hst] at hnw ⊢
          exact habort a hst
      | done s1 a =>
          simp only [runAcc, hst] at hnw ⊢
          exact (hres s1 a (Or.inr (Or.inl hst)) hnw).2
      | cont s1 a =>
          simp only [runAcc, hst] at hnw ⊢
          have hnwa : ∀ j c, Action.wire j c ∉ a := by
            intro j c hm
            exact hnw j c (List.mem_append.mpr (Or.inl hm))
          obtain ⟨hs1, hsda⟩ := hres s1 a (Or.inl hst) hnwa
          intro h0 src hmem
          rcases List.mem_append.mp hmem with hm | hm
          · exact hsda h0 src hm
          · exact ih s1 hs1 (fun j c hm2 =>
              hnw j c (List.mem_append.mpr (Or.inr hm2))) h0 src hm
      | suspend s1 a =>
          simp only [runAcc, hst] at hnw ⊢
          have hnwa : ∀ j c, Action.wire j c ∉ a := by
            intro j c hm
            exact hnw j c (List.mem_append.mpr (Or.inl hm))
          obtain ⟨hs1, hsda⟩ := hres s1 a (Or.inr (Or.inr hst)) hnwa
          intro h0 src hmem
          rcases List.mem_append.mp hmem with hm | hm
          · exact hsda h0 src hm
          · exact ih s1 hs1 (fun j c hm2 =>
              hnw j c (List.mem_append.mpr (Or.inr hm2))) h0 src hm

/-- C7: the loop returns `Ready(())` only in two ways — branch (c), when a
spirc task exists, the ctrl-c stream was not ready and the task's completion
check succeeds, or branch (b) with no spirc handle, `shutting_down` unset
and a ctrl-c notification, in which case the iteration that observes the
interrupt terminates at once and issues no shutdown request; moreover in a
run that starts with no handle and never wires a session, no shutdown
request is ever issued at all. -/
theorem c7_termination :
    (∀ (s : MainLoopState) (i : IterInput) (s3 : MainLoopState) (a : List Action),
        step s i = .done s3 a →
        (s.spirc_task ≠ none ∧ i.spircTaskPoll = .ready ∧ i.ctrl_c = .notReady) ∨
        (s.spirc = none ∧ s.shutting_down = false ∧
          (i.ctrl_c = .readyNone ∨ i.ctrl_c = .ready ()) ∧
          ∀ h0 src, Action.shutdown h0 src ∉ a)) ∧
    (∀ (s : MainLoopState) (l : List IterInput), s.spirc = none →
        (∀ j c, Action.wire j c ∉ (runAcc s l).acts) →
        ∀ h0 src, Action.shutdown h0 src ∉ (runAcc s l).acts) :=
  ⟨step_done_cases, runAcc_no_sd⟩

theorem c7_termination_witness :
    ((idleState.spirc_task ≠ none ∧ interruptInput.spircTaskPoll = .ready ∧
        interruptInput.ctrl_c = .notReady) ∨
     (idleState.spirc = none ∧ idleState.shutting_down = false ∧
        (interruptInput.ctrl_c = .readyNone ∨ interruptInput.ctrl_c = .ready ()) ∧
        ∀ h0 src, Action.shutdown h0 src ∉ ([] : List Action))) ∧
    (∀ h0 src, Action.shutdown h0 src ∉ (runAcc idleState []).acts) := by
  constructor
  · exact c7_termination.1 idleState interruptInput idleState [] (by decide)
  · exact c7_termination.2 idleState [] rfl
      (fun j c h => by simp [runAcc] at h)

theorem step_chanIdLB (k : Nat) (s : MainLoopState) (i : IterInput)
    (hlb : chanIdLB k s) :
    (∀ a, step s i = .aborted a →
        ∀ j e, (Action.spawn j e ∈ a ∨ Action.retrieve j e ∈ a) → k ≤ j) ∧
    (∀ s3 a, (step s i = .cont s3 a ∨ step s i = .done s3 a ∨ step s i = .suspend s3 a) →
        chanIdLB k s3 ∧
        ∀ j e, (Action.spawn j e ∈ a ∨ Action.retrieve j e ∈ a) → k ≤ j) := by
  rcases step_decomp s i with ⟨a2, hstep, hpre, -⟩ |
    ⟨s2, pre, hstep, hpre, -, -, -, -, hwir, -, -, hchan⟩
  · constructor
    · intro a ha j e hor
      rw [hstep] at ha
      cases ha
      have hq : ∃ q0, s.player_event_channel = some (j, q0) := by
        rcases hor with hm | hm
        · exact hpre.2.2 j e (Or.inr (Or.inr hm))
        · exact hpre.2.2 j e (Or.inr (Or.inl hm))
      obtain ⟨q0, hq0⟩ := hq
      exact hlb.1 j q0 hq0
    · intro s3 a hres
      rcases hres with hr | hr | hr <;> rw [hstep] at hr <;> cases hr
  · have hprek : ∀ j e, (Action.spawn j e ∈ pre ∨ Action.retrieve j e ∈ pre) → k ≤ j := by
      intro j e hor
      have hq : ∃ q0, s.player_event_channel = some (j, q0) := by
        rcases hor with hm | hm
        · exact hpre.2.2 j e (Or.inr (Or.inr hm))
        · exact hpre.2.2 j e (Or.inr (Or.inl hm))
      obtain ⟨q0, hq0⟩ := hq
      exact hlb.1 j q0 hq0
    have hlb2 : chanIdLB k s2 := by
      refine ⟨?_, hwir ▸ hlb.2⟩
      intro j q hj
      obtain ⟨q0, hq0⟩ := hchan j q hj
      exact hlb.1 j q0 hq0
    constructor
    · intro a ha j e hor
      rcases branchPhase_shape s2 i with ⟨hb, -⟩ | ⟨c0, -, -, hb⟩ | hb |
        ⟨h1, -, -, hb⟩ | ⟨-, -, -, hb⟩ | ⟨-, -, -, hb⟩ | ⟨-, hb⟩ <;>
        rw [hb] at hstep <;> rw [hstep] at ha <;> cases ha
      refine hprek j e ?_
      rcases hor with hm | hm
      · rcases List.mem_append.mp hm with hm2 | hm2
        · exact Or.inl hm2
        · cases hm2
      · rcases List.mem_append.mp hm with hm2 | hm2
        · exact Or.inr hm2
        · cases hm2
    · intro s3 a hres
      rcases branchPhase_shape s2 i with ⟨hb, -⟩ | ⟨c0, -, -, hb⟩ | hb |
        ⟨h1, -, -, hb⟩ | ⟨-, -, -, hb⟩ | ⟨-, -, -, hb⟩ | ⟨-, hb⟩ <;>
        rw [hb] at hstep <;>
        (rcases hres with hr | hr | hr <;> rw [hstep] at hr <;> cases hr) <;>
        constructor
      · refine ⟨?_, ?_⟩
        · intro j q hj
          have : (wireSession s2 c0).1.player_event_channel =
              some (s2.wirings, []) := rfl
          rw [this] at hj
          simp only [Option.some.injEq, Prod.mk.injEq] at hj
          obtain ⟨rfl, -⟩ := hj
          exact hlb2.2
        · have : (wireSession s2 c0).1.wirings = s2.wirings + 1 := rfl
          rw [this]
          exact Nat.le_succ_of_le hlb2.2
      · intro j e hor
        refine hprek j e ?_
        rcases hor with hm | hm
        · rcases List.mem_append.mp hm with hm2 | hm2
          · exact Or.inl hm2
          · simp [wireSession] at hm2
        · rcases List.mem_append.mp hm with hm2 | hm2
          · exact Or.inr hm2
          · simp [wireSession] at hm2
      · exact hlb2
      · intro j e hor
        refine hprek j e ?_
        rcases hor with hm | hm
        · rcases List.mem_append.mp hm with hm2 | hm2
          · exact Or.inl hm2
          · cases hm2
        · rcases List.mem_append.mp hm with hm2 | hm2
          · exact Or.inr hm2
          · cases hm2
      · exact ⟨hlb2.1, hlb2.2⟩
      · intro j e hor
        refine hprek j e ?_
        rcases hor with hm | hm
        · rcases List.mem_append.mp hm with hm2 | hm2
          · exact Or.inl hm2
          · simp at hm2
        · rcases List.mem_append.mp hm with hm2 | hm2
          · exact Or.inr hm2
          · simp at hm2
      · exact hlb2
      · intro j e hor
        refine hprek j e ?_
        rcases hor with hm | hm
        · rcases List.mem_append.mp hm with hm2 | hm2
          · exact Or.inl hm2
          · cases hm2
        · rcases List.mem_append.mp hm with hm2 | hm2
          · exact Or.inr hm2
          · cases hm2
      · exact hlb2
      · intro j e hor
        refine hprek j e ?_
        rcases hor with hm | hm
        · rcases List.mem_append.mp hm with hm2 | hm2
          · exact Or.inl hm2
          · cases hm2
        · rcases List.mem_append.mp hm with hm2 | hm2
          · exact Or.inr hm2
          · cases hm2
      · exact hlb2
      · intro j e hor
        refine hprek j e ?_
        rcases hor with hm | hm
        · rcases List.mem_append.mp hm with hm2 | hm2
          · exact Or.inl hm2
          · cases hm2
        · rcases List.mem_append.mp hm with hm2 | hm2
          · exact Or.inr hm2
          · cases hm2

theorem runAcc_chanIdLB (k : Nat) (s : MainLoopState) (l : List IterInput)
    (hlb : chanIdLB k s) :
    ∀ j e, (Action.spawn j e ∈ (runAcc s l).acts ∨
        Action.retrieve j e ∈ (runAcc s l).acts) → k ≤ j := by
  induction l generalizing s with
  | nil =>
      intro j e hor
      rcases hor with hm | hm <;> simp [runAcc] at hm
  | cons i rest ih =>
      obtain ⟨habort, hres⟩ := step_chanIdLB k s i hlb
      cases hst : step s i with
      | aborted a =>
          simp only [runAcc, hst]
          exact habort a hst
      | done s1 a =>
          simp only [runAcc, hst]
          exact (hres s1 a (Or.inr (Or.inl hst))).2
      | cont s1 a =>
          simp only [runAcc, hst]
          obtain ⟨hlb1, hk⟩ := hres s1 a (Or.inl hst)
          intro j e hor
          rcases hor with hm | hm <;> rcases List.mem_append.mp hm with hm2 | hm2
          · exact hk j e (Or.inl hm2)
          · exact ih s1 hlb1 j e (Or.inl hm2)
          · exact hk j e (Or.inr hm2)
          · exact ih s1 hlb1 j e (Or.inr hm2)
      | suspend s1 a =>
          simp only [runAcc, hst]
          obtain ⟨hlb1, hk⟩ := hres s1 a (Or.inr (Or.inr hst))
          intro j e hor
          rcases hor with hm | hm <;> rcases List.mem_append.mp hm with hm2 | hm2
          · exact hk j e (Or.inl hm2)
          · exact ih s1 hlb1 j e (Or.inl hm2)
          · exact hk j e (Or.inr hm2)
          · exact ih s1 hlb1 j e (Or.inr hm2)

/-- C10: when the connect operation resolves while an event channel from a
previous session is stored, the stored channel is unconditionally replaced
by the new session's (fresh, empty) channel; no event of the old channel is
retrieved or dispatched in any later iteration (events not yet retrieved
are discarded with it). -/
theorem c10_channel_replaced (s : MainLoopState) (i : IterInput) (c : Creds)
    (oldId : Nat) (oldQ : List Event)
    (hch : s.player_event_channel = some (oldId, oldQ))
    (hc : s.connection = .connecting c) (hlt : oldId < s.wirings)
    (hd : i.discovery = .notReady) (hce : i.chanErr = false)
    (hcp : i.connPoll = .ready) :
    ∀ s3, (step s i).state? = some s3 →
      s3.player_event_channel = some (s.wirings, []) ∧
      ∀ (l : List IterInput) (e : Event),
        Action.spawn oldId e ∉ (runAcc s3 l).acts ∧
        Action.retrieve oldId e ∉ (runAcc s3 l).acts := by
  intro s3 h3
  obtain ⟨-, -, hfields⟩ := wire_step_aux s i c [] (by rw [hd, ← hc]; rfl) hce hcp
  obtain ⟨-, -, -, hchan3, -, hwir3⟩ := hfields s3 h3
  refine ⟨hchan3, ?_⟩
  have hlb : chanIdLB (oldId + 1) s3 := by
    constructor
    · intro j q hj
      rw [hchan3] at hj
      simp only [Option.some.injEq, Prod.mk.injEq] at hj
      obtain ⟨rfl, -⟩ := hj
      exact hlt
    · rw [hwir3]
      exact Nat.le_succ_of_le hlt
  intro l e
  constructor
  · intro hmem
    have := runAcc_chanIdLB (oldId + 1) s3 l hlb oldId e (Or.inl hmem)
    exact absurd this (by simp)
  · intro hmem
    have := runAcc_chanIdLB (oldId + 1) s3 l hlb oldId e (Or.inr hmem)
    exact absurd this (by simp)

theorem c10_channel_replaced_witness :
    c10Post.player_event_channel = some (1, []) ∧
    Action.spawn 0 9 ∉ (runAcc c10Post [quietInput]).acts ∧
    Action.retrieve 0 9 ∉ (runAcc c10Post [quietInput]).acts := by
  obtain ⟨h1, h2⟩ := c10_channel_replaced c10State c8Input 3 0 [9] rfl rfl (by decide)
    rfl rfl rfl c10Post (by decide)
  exact ⟨h1, (h2 [quietInput] 9).1, (h2 [quietInput] 9).2⟩

theorem superviseChild_some (child : Option (Nat × Event)) (w : TryWaitRes)
    (c0 : Nat × Event) (h : (superviseChild child w).1 = some c0) :
    child = some c0 ∧ w = .stillRunning := by
  rcases child with _ | c <;> cases w <;> simp [superviseChild] at h <;> simp [h]

theorem retrievedOf_append (id : Nat) (a b : List Action) :
    retrievedOf id (a ++ b) = retrievedOf id a ++ retrievedOf id b := by
  simp [retrievedOf]

theorem spawnedOf_append (id : Nat) (a b : List Action) :
    spawnedOf id (a ++ b) = spawnedOf id a ++ spawnedOf id b := by
  simp [spawnedOf]

theorem arrivedOf_append (id : Nat) (a b : List Action) :
    arrivedOf id (a ++ b) = arrivedOf id a ++ arrivedOf id b := by
  simp [arrivedOf]

theorem chanProj_credlike (id : Nat) (l : List Action)
    (h : ∀ x ∈ l, credActLike x = true) :
    retrievedOf id l = [] ∧ spawnedOf id l = [] ∧ arrivedOf id l = [] := by
  induction l with
  | nil => exact ⟨rfl, rfl, rfl⟩
  | cons x t ih =>
      have hx := h x (List.mem_cons_self x t)
      have ht := ih (fun y hy => h y (List.mem_cons_of_mem x hy))
      cases x <;>
        simp_all [retrievedOf, spawnedOf, arrivedOf, credActLike, List.filterMap_cons]

theorem chanProj_cleared (id : Nat) (l : List Action)
    (h : ∀ x ∈ l, ∃ e b, x = Action.cleared e b) :
    retrievedOf id l = [] ∧ spawnedOf id l = [] ∧ arrivedOf id l = [] := by
  induction l with
  | nil => exact ⟨rfl, rfl, rfl⟩
  | cons x t ih =>
      obtain ⟨e, b, rfl⟩ := h x (List.mem_cons_self x t)
      have ht := ih (fun y hy => h y (List.mem_cons_of_mem _ hy))
      simp_all [retrievedOf, spawnedOf, arrivedOf, List.filterMap_cons]

theorem chanProj_arrivedMap (id : Nat) (arr : List Event) :
    retrievedOf id (arr.map (Action.arrived id)) = [] ∧
    spawnedOf id (arr.map (Action.arrived id)) = [] ∧
    arrivedOf id (arr.map (Action.arrived id)) = arr := by
  induction arr with
  | nil => exact ⟨rfl, rfl, rfl⟩
  | cons e t ih =>
      simp_all [retrievedOf, spawnedOf, arrivedOf, List.filterMap_cons]

theorem chanProj_retrieve (id : Nat) (e : Event) :
    retrievedOf id [Action.retrieve id e] = [e] ∧
    spawnedOf id [Action.retrieve id e] = [] ∧
    arrivedOf id [Action.retrieve id e] = [] := by
  refine ⟨?_, rfl, rfl⟩
  simp [retrievedOf, List.filterMap_cons]

theorem chanProj_retrieveSpawn (id : Nat) (e : Event) :
    retrievedOf id [Action.retrieve id e, Action.spawn id e] = [e] ∧
    spawnedOf id [Action.retrieve id e, Action.spawn id e] = [e] ∧
    arrivedOf id [Action.retrieve id e, Action.spawn id e] = [] := by
  refine ⟨?_, ?_, rfl⟩ <;> simp [retrievedOf, spawnedOf, List.filterMap_cons]

theorem chanProj_sd (id : Nat) (h : Nat) (src : SdSource) :
    retrievedOf id [Action.shutdown h src] = [] ∧
    spawnedOf id [Action.shutdown h src] = [] ∧
    arrivedOf id [Action.shutdown h src] = [] :=
  ⟨rfl, rfl, rfl⟩

/-- Under quiet branch inputs (connect pending-not-ready, ctrl-c and task
polls not erroring) the branch chain never panics and never wires: it
returns one of the three non-panic results, preserves the channel and the
program, and emits at most a shutdown request. -/
theorem branchPhase_quiet (s2 : MainLoopState) (i : IterInput)
    (hcp : i.connPoll = .notReady) (hcc : i.ctrl_c ≠ .err) (htp : i.spircTaskPoll ≠ .err) :
    ∃ s3 b, (branchPhase s2 i = .cont s3 b ∨ branchPhase s2 i = .done s3 b ∨
        branchPhase s2 i = .suspend s3 b) ∧
      s3.player_event_channel = s2.player_event_channel ∧
      s3.player_event_program = s2.player_event_program ∧
      ∀ id, retrievedOf id b = [] ∧ spawnedOf id b = [] ∧ arrivedOf id b = [] := by
  rcases branchPhase_shape s2 i with ⟨hb, hcause⟩ | ⟨c0, -, hready, -⟩ | hb |
    ⟨h0, -, -, hb⟩ | ⟨-, -, -, hb⟩ | ⟨-, -, -, hb⟩ | ⟨-, hb⟩
  · rcases hcause with h1 | h1 | ⟨-, h1⟩
    · rw [hcp] at h1; cases h1
    · exact absurd h1 hcc
    · exact absurd h1 htp
  · rw [hcp] at hready; cases hready
  · exact ⟨s2, [], Or.inl hb, rfl, rfl, fun id => ⟨rfl, rfl, rfl⟩⟩
  · exact ⟨{ s2 with shutting_down := true }, [Action.shutdown h0 .interrupt],
      Or.inl hb, rfl, rfl, fun id => chanProj_sd id h0 .interrupt⟩
  · exact ⟨s2, [], Or.inr (Or.inl hb), rfl, rfl, fun id => ⟨rfl, rfl, rfl⟩⟩
  · exact ⟨s2, [], Or.inr (Or.inl hb), rfl, rfl, fun id => ⟨rfl, rfl, rfl⟩⟩
  · exact ⟨s2, [], Or.inr (Or.inr hb), rfl, rfl, fun id => ⟨rfl, rfl, rfl⟩⟩

theorem step_fifo_aux (s : MainLoopState) (i : IterInput) (id : Nat) (q : List Event)
    (s1 : MainLoopState) (a1 : List Action)
    (hcred : credPhase s i.discovery = .ok (s1, a1))
    (hch1 : s1.player_event_channel = some (id, q))
    (hprog1 : s1.player_event_program = s.player_event_program)
    (ha1 : ∀ x ∈ a1, credActLike x = true)
    (hce : i.chanErr = false) (hcp : i.connPoll = .notReady)
    (hcc : i.ctrl_c ≠ .err) (htp : i.spircTaskPoll ≠ .err) :
    ∃ s3 a, (step s i = .cont s3 a ∨ step s i = .done s3 a ∨ step s i = .suspend s3 a) ∧
      (∃ q3, s3.player_event_channel = some (id, q3) ∧
        retrievedOf id a ++ q3 = q ++ arrivedOf id a) ∧
      s3.player_event_program = s.player_event_program ∧
      (s.player_event_program ≠ none → spawnedOf id a = retrievedOf id a) ∧
      (s.player_event_program = none → spawnedOf id a = []) := by
  obtain ⟨hr1, hs1a, hv1⟩ := chanProj_credlike id a1 ha1
  obtain ⟨hr2, hs2a, hv2⟩ := chanProj_cleared id
    (superviseChild s1.running_event_program i.try_wait).2
    (superviseChild_mem s1.running_event_program i.try_wait)
  obtain ⟨hr3, hs3a, hv3⟩ := chanProj_arrivedMap id i.arrivals
  cases hc1 : (superviseChild s1.running_event_program i.try_wait).1 with
  | some c0 =>
      have hhe : hookStep s1.running_event_program s1.player_event_channel
          s1.player_event_program i.try_wait i.arrivals i.chanErr =
          .ok (some c0, some (id, q ++ i.arrivals),
               (superviseChild s1.running_event_program i.try_wait).2 ++
                 i.arrivals.map (Action.arrived id)) := by
        rw [hookStep_eq, hc1, hch1, appendArrivals_some]
      have hstep := step_hook_ok s i s1 a1 (some c0) (some (id, q ++ i.arrivals)) _
        hcred hhe
      obtain ⟨s3, b, hres, hch3, hprog3, hproj⟩ := branchPhase_quiet
        (phaseUpdate s1 (some c0) (some (id, q ++ i.arrivals))) i hcp hcc htp
      obtain ⟨hrb, hsb, hvb⟩ := hproj id
      refine ⟨s3, (a1 ++ ((superviseChild s1.running_event_program i.try_wait).2 ++
          i.arrivals.map (Action.arrived id))) ++ b, ?_, ?_, ?_, ?_, ?_⟩
      · rcases hres with hr | hr | hr <;> rw [hr] at hstep
        · exact Or.inl hstep
        · exact Or.inr (Or.inl hstep)
        · exact Or.inr (Or.inr hstep)
      · refine ⟨q ++ i.arrivals, ?_, ?_⟩
        · rw [hch3]; rfl
        · simp only [retrievedOf_append, arrivedOf_append, hr1, hr2, hr3, hrb,
            hv1, hv2, hv3, hvb]
          simp
      · rw [hprog3]
        exact hprog1
      · intro _
        simp only [spawnedOf_append, retrievedOf_append, hr1, hr2, hr3, hrb,
          hs1a, hs2a, hs3a, hsb]
      · intro _
        simp only [spawnedOf_append, hs1a, hs2a, hs3a, hsb]
        simp
  | none =>
      have hhe : hookStep s1.running_event_program s1.player_event_channel
          s1.player_event_program i.try_wait i.arrivals i.chanErr =
          hookCore ((superviseChild s1.running_event_program i.try_wait).2 ++
              i.arrivals.map (Action.arrived id))
            (some (id, q ++ i.arrivals)) s1.player_event_program false := by
        rw [hookStep_eq, hc1, hch1, appendArrivals_some, hce]
      rcases hookCore_cases ((superviseChild s1.running_event_program i.try_wait).2 ++
          i.arrivals.map (Action.arrived id))
          (some (id, q ++ i.arrivals)) s1.player_event_program false with
        ⟨hcn, -⟩ | ⟨hcf, -, -⟩ | ⟨-, id0, hcn, hcore⟩ |
        ⟨-, hpn, id0, e0, rest0, hcn, hcore⟩ | ⟨-, hps, id0, e0, rest0, hcn, hcore⟩
      · cases hcn
      · cases hcf
      · simp only [Option.some.injEq, Prod.mk.injEq] at hcn
        obtain ⟨rfl, hqa⟩ := hcn
        rw [hcore] at hhe
        have hh2 : hookStep s1.running_event_program s1.player_event_channel
            s1.player_event_program i.try_wait i.arrivals i.chanErr =
            .ok (none, some (id, []),
                 (superviseChild s1.running_event_program i.try_wait).2 ++
                   i.arrivals.map (Action.arrived id)) := hhe
        have hstep := step_hook_ok s i s1 a1 none (some (id, [])) _ hcred hh2
        obtain ⟨s3, b, hres, hch3, hprog3, hproj⟩ := branchPhase_quiet
          (phaseUpdate s1 none (some (id, []))) i hcp hcc htp
        obtain ⟨hrb, hsb, hvb⟩ := hproj id
        refine ⟨s3, (a1 ++ ((superviseChild s1.running_event_program i.try_wait).2 ++
            i.arrivals.map (Action.arrived id))) ++ b, ?_, ?_, ?_, ?_, ?_⟩
        · rcases hres with hr | hr | hr <;> rw [hr] at hstep
          · exact Or.inl hstep
          · exact Or.inr (Or.inl hstep)
          · exact Or.inr (Or.inr hstep)
        · refine ⟨[], ?_, ?_⟩
          · rw [hch3]; rfl
          · simp only [retrievedOf_append, arrivedOf_append, hr1, hr2, hr3, hrb,
              hv1, hv2, hv3, hvb]
            simp [hqa]
        · rw [hprog3]
          exact hprog1
        · intro _
          simp only [spawnedOf_append, retrievedOf_append, hr1, hr2, hr3, hrb,
            hs1a, hs2a, hs3a, hsb]
        · intro _
          simp only [spawnedOf_append, hs1a, hs2a, hs3a, hsb]
          simp
      · simp only [Option.some.injEq, Prod.mk.injEq] at hcn
        obtain ⟨rfl, hqa⟩ := hcn
        obtain ⟨hr4, hs4, hv4⟩ := chanProj_retrieve id e0
        rw [hcore] at hhe
        have hh2 : hookStep s1.running_event_program s1.player_event_channel
            s1.player_event_program i.try_wait i.arrivals i.chanErr =
            .ok (none, some (id, rest0),
                 ((superviseChild s1.running_event_program i.try_wait).2 ++
                   i.arrivals.map (Action.arrived id)) ++ [Action.retrieve id e0]) := hhe
        have hstep := step_hook_ok s i s1 a1 none (some (id, rest0)) _ hcred hh2
        obtain ⟨s3, b, hres, hch3, hprog3, hproj⟩ := branchPhase_quiet
          (phaseUpdate s1 none (some (id, rest0))) i hcp hcc htp
        obtain ⟨hrb, hsb, hvb⟩ := hproj id
        refine ⟨s3, (a1 ++ (((superviseChild s1.running_event_program i.try_wait).2 ++
            i.arrivals.map (Action.arrived id)) ++ [Action.retrieve id e0])) ++ b,
            ?_, ?_, ?_, ?_, ?_⟩
        · rcases hres with hr | hr | hr <;> rw [hr] at hstep
          · exact Or.inl hstep
          · exact Or.inr (Or.inl hstep)
          · exact Or.inr (Or.inr hstep)
        · refine ⟨rest0, ?_, ?_⟩
          · rw [hch3]; rfl
          · simp only [retrievedOf_append, arrivedOf_append, hr1, hr2, hr3, hrb,
              hr4, hv1, hv2, hv3, hv4, hvb]
            simp [hqa]
        · rw [hprog3]
          exact hprog1
        · intro hne
          rw [← hprog1] at hne
          exact absurd hpn hne
        · intro _
          simp only [spawnedOf_append, hs1a, hs2a, hs3a, hs4, hsb]
          simp
      · simp only [Option.some.injEq, Prod.mk.injEq] at hcn
        obtain ⟨rfl, hqa⟩ := hcn
        obtain ⟨hr4, hs4, hv4⟩ := chanProj_retrieveSpawn id e0
        rw [hcore] at hhe
        have hh2 : hookStep s1.running_event_program s1.player_event_channel
            s1.player_event_program i.try_wait i.arrivals i.chanErr =
            .ok (some (id, e0), some (id, rest0),
                 ((superviseChild s1.running_event_program i.try_wait).2 ++
                   i.arrivals.map (Action.arrived id)) ++
                   [Action.retrieve id e0, Action.spawn id e0]) := hhe
        have hstep := step_hook_ok s i s1 a1 (some (id, e0)) (some (id, rest0)) _
          hcred hh2
        obtain ⟨s3, b, hres, hch3, hprog3, hproj⟩ := branchPhase_quiet
          (phaseUpdate s1 (some (id, e0)) (some (id, rest0))) i hcp hcc htp
        obtain ⟨hrb, hsb, hvb⟩ := hproj id
        refine ⟨s3, (a1 ++ (((superviseChild s1.running_event_program i.try_wait).2 ++
            i.arrivals.map (Action.arrived id)) ++
            [Action.retrieve id e0, Action.spawn id e0])) ++ b, ?_, ?_, ?_, ?_, ?_⟩
        · rcases hres with hr | hr | hr <;> rw [hr] at hstep
          · exact Or.inl hstep
          · exact Or.inr (Or.inl hstep)
          · exact Or.inr (Or.inr hstep)
        · refine ⟨rest0, ?_, ?_⟩
          · rw [hch3]; rfl
          · simp only [retrievedOf_append, arrivedOf_append, hr1, hr2, hr3, hrb,
              hr4, hv1, hv2, hv3, hv4, hvb]
            simp [hqa]
        · rw [hprog3]
          exact hprog1
        · intro _
          simp only [spawnedOf_append, retrievedOf_append, hr1, hr2, hr3, hrb,
            hr4, hs1a, hs2a, hs3a, hs4, hsb]
        · intro hn
          rw [← hprog1] at hn
          exact absurd hn hps

theorem step_fifo (s : MainLoopState) (i : IterInput) (id : Nat) (q : List Event)
    (hch : s.player_event_channel = some (id, q))
    (hd : i.discovery ≠ .err) (hce : i.chanErr = false) (hcp : i.connPoll = .notReady)
    (hcc : i.ctrl_c ≠ .err) (htp : i.spircTaskPoll ≠ .err) :
    ∃ s3 a, (step s i = .cont s3 a ∨ step s i = .done s3 a ∨ step s i = .suspend s3 a) ∧
      (∃ q3, s3.player_event_channel = some (id, q3) ∧
        retrievedOf id a ++ q3 = q ++ arrivedOf id a) ∧
      s3.player_event_program = s.player_event_program ∧
      (s.player_event_program ≠ none → spawnedOf id a = retrievedOf id a) ∧
      (s.player_event_program = none → spawnedOf id a = []) := by
  rcases credPhase_shape s i.discovery with ⟨-, hderr⟩ | hcred |
    ⟨c, -, ⟨h0, -, hcred⟩ | ⟨-, hcred⟩⟩
  · exact absurd hderr hd
  · exact step_fifo_aux s i id q s [] hcred hch rfl (by simp) hce hcp hcc htp
  · refine step_fifo_aux s i id q _ _ hcred hch rfl ?_ hce hcp hcc htp
    intro x hx
    simp only [List.mem_cons, List.mem_singleton, List.not_mem_nil, or_false] at hx
    rcases hx with rfl | rfl <;> rfl
  · refine step_fifo_aux s i id q _ _ hcred hch rfl ?_ hce hcp hcc htp
    intro x hx
    simp only [List.mem_singleton] at hx
    subst hx
    rfl

theorem runAcc_fifo : ∀ (l : List IterInput) (s : MainLoopState) (id : Nat)
    (q : List Event),
    s.player_event_channel = some (id, q) → s.player_event_program ≠ none →
    (∀ i ∈ l, i.discovery ≠ .err ∧ i.chanErr = false ∧ i.connPoll = .notReady ∧
        i.ctrl_c ≠ .err ∧ i.spircTaskPoll ≠ .err) →
    spawnedOf id (runAcc s l).acts = retrievedOf id (runAcc s l).acts ∧
    ∃ q3, (runAcc s l).state.player_event_channel = some (id, q3) ∧
      retrievedOf id (runAcc s l).acts ++ q3 = q ++ arrivedOf id (runAcc s l).acts := by
  intro l
  induction l with
  | nil =>
      intro s id q hch hprog hgood
      exact ⟨rfl, q, hch, by simp [runAcc, retrievedOf, arrivedOf]⟩
  | cons i rest ih =>
      intro s id q hch hprog hgood
      obtain ⟨hd, hce, hcp, hcc, htp⟩ := hgood i (List.mem_cons_self i rest)
      obtain ⟨s3, a, hres, ⟨q3, hch3, heq⟩, hprog3, hspre, -⟩ :=
        step_fifo s i id q hch hd hce hcp hcc htp
      have hspawned : spawnedOf id a = retrievedOf id a := hspre hprog
      have hprog3n : s3.player_event_program ≠ none := by
        rw [hprog3]
        exact hprog
      have hgoodr : ∀ j ∈ rest, j.discovery ≠ .err ∧ j.chanErr = false ∧
          j.connPoll = .notReady ∧ j.ctrl_c ≠ .err ∧ j.spircTaskPoll ≠ .err :=
        fun j hj => hgood j (List.mem_cons_of_mem i hj)
      rcases hres with hr | hr | hr
      · obtain ⟨ih1, qf, ihch, iheq⟩ := ih s3 id q3 hch3 hprog3n hgoodr
        simp only [runAcc, hr]
        refine ⟨?_, qf, ihch, ?_⟩
        · rw [spawnedOf_append, retrievedOf_append, hspawned, ih1]
        · rw [retrievedOf_append, arrivedOf_append, List.append_assoc, iheq,
            ← List.append_assoc, ← List.append_assoc, heq]
      · simp only [runAcc, hr]
        exact ⟨hspawned, q3, hch3, heq⟩
      · obtain ⟨ih1, qf, ihch, iheq⟩ := ih s3 id q3 hch3 hprog3n hgoodr
        simp only [runAcc, hr]
        refine ⟨?_, qf, ihch, ?_⟩
        · rw [spawnedOf_append, retrievedOf_append, hspawned, ih1]
        · rw [retrievedOf_append, arrivedOf_append, List.append_assoc, iheq,
            ← List.append_assoc, ← List.append_assoc, heq]

theorem spawn_needs_idle (s : MainLoopState) (i : IterInput) (j : Nat) (e : Event)
    (hmem : Action.spawn j e ∈ (step s i).acts) :
    (superviseChild s.running_event_program i.try_wait).1 = none := by
  cases hc1 : (superviseChild s.running_event_program i.try_wait).1 with
  | none => rfl
  | some c0 =>
      obtain ⟨hrun, hw⟩ := superviseChild_some _ _ _ hc1
      obtain ⟨hcount, -⟩ := step_still_keeps s i c0 hrun hw
      have hno := List.countP_eq_zero.mp hcount _ hmem
      simp [isSpawnAct] at hno

/-- C5 counterexample: the `try_wait` check on event 1's process returns an
error; the handle is dropped and event 2's process is spawned in the same
iteration even though event 1's process was never observed to exit (no
confirmed `cleared` record exists) — contradicting "a later event's process
is spawned only after the earlier event's process has been observed to
exit". -/
theorem c5_counterexample :
    Action.spawn 0 2 ∈ (step c5State c2Input).acts ∧
    Action.cleared 1 false ∈ (step c5State c2Input).acts ∧
    Action.cleared 1 true ∉ (step c5State c2Input).acts := by
  decide

/-- C5 (amended): dispatch is strictly FIFO and serialized at the handle
level — over any run whose iterations never error and never resolve a
connect (so the channel is not replaced), with a hook program configured,
one process is spawned per retrieved event (the spawned sequence equals the
retrieved sequence), and the retrieved events followed by the remaining
queue are exactly the initial queue followed by the arrivals, in order (no
event skipped or reordered); a spawn can occur only in an iteration whose
`try_wait` phase left the handle slot empty — the earlier process exited or
its exit check failed. -/
theorem c5_fifo_dispatch :
    (∀ (l : List IterInput) (s : MainLoopState) (id : Nat) (q : List Event),
        s.player_event_channel = some (id, q) → s.player_event_program ≠ none →
        (∀ i ∈ l, i.discovery ≠ .err ∧ i.chanErr = false ∧ i.connPoll = .notReady ∧
            i.ctrl_c ≠ .err ∧ i.spircTaskPoll ≠ .err) →
        spawnedOf id (runAcc s l).acts = retrievedOf id (runAcc s l).acts ∧
        ∃ q3, (runAcc s l).state.player_event_channel = some (id, q3) ∧
          retrievedOf id (runAcc s l).acts ++ q3 = q ++ arrivedOf id (runAcc s l).acts) ∧
    (∀ (s : MainLoopState) (i : IterInput) (j : Nat) (e : Event),
        Action.spawn j e ∈ (step s i).acts →
        (superviseChild s.running_event_program i.try_wait).1 = none) :=
  ⟨runAcc_fifo, spawn_needs_idle⟩

theorem c5_fifo_dispatch_witness :
    (spawnedOf 0 (runAcc c5WState [quietInput, quietInput]).acts =
        retrievedOf 0 (runAcc c5WState [quietInput, quietInput]).acts ∧
      ∃ q3, (runAcc c5WState [quietInput, quietInput]).state.player_event_channel =
          some (0, q3) ∧
        retrievedOf 0 (runAcc c5WState [quietInput, quietInput]).acts ++ q3 =
          [1, 2] ++ arrivedOf 0 (runAcc c5WState [quietInput, quietInput]).acts) ∧
    (superviseChild c5WState.running_event_program quietInput.try_wait).1 = none := by
  constructor
  · exact c5_fifo_dispatch.1 [quietInput, quietInput] c5WState 0 [1, 2] rfl
      (by decide) (by decide)
  · exact c5_fifo_dispatch.2 c5WState quietInput 0 1 (by decide)

end MainLoop
